import Mathlib

/-!
Shallow embedding of `geocache.py` (valyala/geocache): an in-memory
geo-proximity index with a per-sector bounded, TTL'd, priority-ranked cache.

Modelling conventions:
* Python floats used as priorities are modelled as rationals (`ℚ`);
  floats produced by trigonometry and square roots are modelled as reals (`ℝ`).
* `time.time()` is modelled as an integer clock (`ℤ`), so the source's
  `int(current_time + TTL)` truncation is the identity.
* In-place mutation of the process-global dictionaries becomes explicit
  state passing (`Cache` is a total function from keys to buckets, with the
  empty bucket standing for an absent key, matching `defaultdict(list)`).
* A raised Python exception is modelled as an `Except.error` result.
-/

namespace Geocache

set_option maxRecDepth 8000

/-- Python exception outcomes raised by the source, by raise site. -/
inductive PyError where
  | keyError
  | indexError
  | typeError
  | assertionError
  | valueError
  | invalidHmac
  | tokenExpired
  | noSuchPoint
  | invalidAppToken
deriving DecidableEq

/-- `PointCache._MAX_POINTS_PER_SECTOR`. -/
def MAX_POINTS_PER_SECTOR : ℕ := 125

/-- `PointCache._TTL`, seconds. -/
def TTL : ℤ := 60

/-- `PointCache._Point` namedtuple `(point_id, priority, exp_time)`. -/
structure CachePoint where
  point_id : ℕ
  priority : ℚ
  exp_time : ℤ
deriving DecidableEq

/-- `PointCache._RemoveExpiredPoints`: keep exactly the entries with
`exp_time > current_time`. -/
def removeExpiredPoints (points : List CachePoint) (current_time : ℤ) : List CachePoint :=
  points.filter (fun p => decide (current_time < p.exp_time))

/-- The single scan loop of `PointCache._UpdatePoint`: walk the bucket once;
on the first entry whose `point_id` matches, replace it in place inside `full`
and stop; otherwise track the index of the strictly minimal priority seen so
far (earliest index wins ties). -/
def scanPoints (point_id : ℕ) (new_point : CachePoint) (full : List CachePoint) :
    List CachePoint → ℕ → ℕ → ℚ → Option (List CachePoint) × ℕ × ℚ
  | [], _, min_priority_index, min_priority => (none, min_priority_index, min_priority)
  | p :: rest, i, min_priority_index, min_priority =>
    if p.point_id = point_id then (some (full.set i new_point), min_priority_index, min_priority)
    else if p.priority < min_priority then
      scanPoints point_id new_point full rest (i + 1) i p.priority
    else
      scanPoints point_id new_point full rest (i + 1) min_priority_index min_priority

/-- The part of `PointCache._UpdatePoint` after the purge and the `exp_time`
computation: empty bucket appends; a `point_id` hit replaces in place; a full
bucket evicts the minimum-priority slot only when `min_priority < priority`,
otherwise rejects; a non-full bucket appends. -/
def updatePointPurged (points : List CachePoint) (point_id : ℕ) (priority : ℚ)
    (exp_time : ℤ) : Bool × List CachePoint :=
  let new_point : CachePoint := ⟨point_id, priority, exp_time⟩
  match points with
  | [] => (true, [new_point])
  | p0 :: _ =>
    match scanPoints point_id new_point points points 0 0 p0.priority with
    | (some replaced, _, _) => (true, replaced)
    | (none, min_priority_index, min_priority) =>
      if points.length = MAX_POINTS_PER_SECTOR then
        if min_priority < priority then (true, points.set min_priority_index new_point)
        else (false, points)
      else (true, points ++ [new_point])

/-- `PointCache._UpdatePoint`: purge expired entries, compute
`exp_time = current_time + TTL`, then admit/replace/reject.  Returns the
admission flag and the new bucket contents. -/
def updatePoint (points : List CachePoint) (point_id : ℕ) (priority : ℚ)
    (current_time : ℤ) : Bool × List CachePoint :=
  updatePointPurged (removeExpiredPoints points current_time) point_id priority
    (current_time + TTL)

/-- The `assert len(points) <= PointCache._MAX_POINTS_PER_SECTOR` executed by
`_UpdatePoint` right after the purge. -/
def updateAssertOK (points : List CachePoint) (current_time : ℤ) : Prop :=
  (removeExpiredPoints points current_time).length ≤ MAX_POINTS_PER_SECTOR

/-- A sector id `(x_id, y_id, z_id, zoom_level)` as built by `_GetSectorId`. -/
abbrev SectorId := ℤ × ℤ × ℤ × ℕ

/-- A cache key `(app_id, subject_id, sector_id, zoom_level)`. -/
abbrev CacheKey := ℕ × ℕ × SectorId × ℕ

instance : DecidableEq CacheKey := fun a b => instDecidableEqProd a b

/-- `PointCache._CACHE`, a `defaultdict(list)`: a total map from keys to
buckets where the empty bucket is indistinguishable from an absent key. -/
abbrev Cache := CacheKey → List CachePoint

/-- `PointCache.UpdatePointInSector`. -/
def updatePointInSector (c : Cache) (app_id subject_id : ℕ) (sector_id : SectorId)
    (zoom_level : ℕ) (point_id : ℕ) (priority : ℚ) (current_time : ℤ) : Bool × Cache :=
  let key : CacheKey := (app_id, subject_id, sector_id, zoom_level)
  let r := updatePoint (c key) point_id priority current_time
  (r.1, Function.update c key r.2)

/-- `PointCache.GetPointsInSector`: an absent or empty bucket yields the empty
sequence without touching the cache; otherwise the bucket is purged in place
and the purged bucket returned. -/
def getPointsInSector (c : Cache) (app_id subject_id : ℕ) (sector_id : SectorId)
    (zoom_level : ℕ) (current_time : ℤ) : List CachePoint × Cache :=
  let key : CacheKey := (app_id, subject_id, sector_id, zoom_level)
  let points := c key
  if points.isEmpty then ([], c)
  else
    let pts := removeExpiredPoints points current_time
    (pts, Function.update c key pts)

/-- Cache states reachable from the initial empty cache by any sequence of
`UpdatePointInSector` and `GetPointsInSector` calls, at arbitrary times. -/
inductive Reachable : Cache → Prop
  | init : Reachable (fun _ => [])
  | update (app_id subject_id : ℕ) (sector_id : SectorId) (zoom_level point_id : ℕ)
      (priority : ℚ) (current_time : ℤ) {c : Cache} (h : Reachable c) :
      Reachable (updatePointInSector c app_id subject_id sector_id zoom_level point_id
        priority current_time).2
  | get (app_id subject_id : ℕ) (sector_id : SectorId) (zoom_level : ℕ)
      (current_time : ℤ) {c : Cache} (h : Reachable c) :
      Reachable (getPointsInSector c app_id subject_id sector_id zoom_level current_time).2

/-- Bucket well-formedness: bounded size and pairwise-distinct point ids. -/
def WFBucket (b : List CachePoint) : Prop :=
  b.length ≤ MAX_POINTS_PER_SECTOR ∧ (b.map CachePoint.point_id).Nodup

/-! Concrete inputs used by the claim witnesses. -/

/-- A bucket holding exactly 125 live entries of priority 1. -/
def fullBucket : List CachePoint :=
  (List.range MAX_POINTS_PER_SECTOR).map (fun i => ⟨i, 1, 100⟩)

/-- The initial, empty cache. -/
def cacheInit : Cache := fun _ => []

/-- A sample cache key. -/
def keyA : CacheKey := (0, 0, (0, 0, 0, 0), 0)

/-- A reachable cache holding one point. -/
def cacheOne : Cache := (updatePointInSector cacheInit 0 0 (0, 0, 0, 0) 0 7 1 0).2

/-- A cache with one expired and one live entry under `keyA`. -/
def cacheC3 : Cache := fun k => if k = keyA then [⟨1, 1, 10⟩, ⟨2, 1, 100⟩] else []

/-- A one-entry bucket for point 7. -/
def bucket7 : List CachePoint := [⟨7, 1, 100⟩]

/-! ### Lemmas about the scan loop -/

theorem scanPoints_none_no_match (point_id : ℕ) (np : CachePoint) (full : List CachePoint) :
    ∀ (l : List CachePoint) (i mi : ℕ) (mp : ℚ),
      (scanPoints point_id np full l i mi mp).1 = none → ∀ p ∈ l, p.point_id ≠ point_id := by
  intro l
  induction l with
  | nil => intro i mi mp _ p hp; cases hp
  | cons q rest ih =>
    intro i mi mp h p hp
    by_cases hq : q.point_id = point_id
    · simp [scanPoints, hq] at h
    · rcases List.mem_cons.mp hp with hp | hp
      · subst hp; exact hq
      · by_cases hlt : q.priority < mp
        · exact ih (i + 1) i q.priority (by simpa [scanPoints, hq, hlt] using h) p hp
        · exact ih (i + 1) mi mp (by simpa [scanPoints, hq, hlt] using h) p hp

theorem scanPoints_none_min_le (point_id : ℕ) (np : CachePoint) (full : List CachePoint) :
    ∀ (l : List CachePoint) (i mi : ℕ) (mp : ℚ),
      (scanPoints point_id np full l i mi mp).1 = none →
      (scanPoints point_id np full l i mi mp).2.2 ≤ mp ∧
        ∀ p ∈ l, (scanPoints point_id np full l i mi mp).2.2 ≤ p.priority := by
  intro l
  induction l with
  | nil => intro i mi mp _; exact ⟨le_refl _, by intro p hp; cases hp⟩
  | cons q rest ih =>
    intro i mi mp h
    by_cases hq : q.point_id = point_id
    · simp [scanPoints, hq] at h
    · by_cases hlt : q.priority < mp
      · have h' := (by simpa [scanPoints, hq, hlt] using h :
          (scanPoints point_id np full rest (i + 1) i q.priority).1 = none)
        have := ih (i + 1) i q.priority h'
        refine ⟨le_of_lt (lt_of_le_of_lt ?_ hlt), ?_⟩
        · simpa [scanPoints, hq, hlt] using this.1
        · intro p hp
          rcases List.mem_cons.mp hp with hp | hp
          · subst hp; simpa [scanPoints, hq, hlt] using this.1
          · simpa [scanPoints, hq, hlt] using this.2 p hp
      · have h' := (by simpa [scanPoints, hq, hlt] using h :
          (scanPoints point_id np full rest (i + 1) mi mp).1 = none)
        have := ih (i + 1) mi mp h'
        refine ⟨by simpa [scanPoints, hq, hlt] using this.1, ?_⟩
        intro p hp
        rcases List.mem_cons.mp hp with hp | hp
        · subst hp
          have h1 : (scanPoints point_id np full rest (i + 1) mi mp).2.2 ≤ mp := this.1
          have h2 : mp ≤ p.priority := le_of_not_lt hlt
          simpa [scanPoints, hq, hlt] using le_trans h1 h2
        · simpa [scanPoints, hq, hlt] using this.2 p hp

theorem scanPoints_none_min_attained (point_id : ℕ) (np : CachePoint)
    (full : List CachePoint) :
    ∀ (l : List CachePoint) (i mi : ℕ) (mp : ℚ),
      (scanPoints point_id np full l i mi mp).1 = none →
      (scanPoints point_id np full l i mi mp).2.2 = mp ∨
        ∃ p ∈ l, (scanPoints point_id np full l i mi mp).2.2 = p.priority := by
  intro l
  induction l with
  | nil => intro i mi mp _; exact Or.inl rfl
  | cons q rest ih =>
    intro i mi mp h
    by_cases hq : q.point_id = point_id
    · simp [scanPoints, hq] at h
    · by_cases hlt : q.priority < mp
      · have h' := (by simpa [scanPoints, hq, hlt] using h :
          (scanPoints point_id np full rest (i + 1) i q.priority).1 = none)
        rcases ih (i + 1) i q.priority h' with h1 | ⟨p, hp, h1⟩
        · exact Or.inr ⟨q, List.mem_cons_self _ _, by simpa [scanPoints, hq, hlt] using h1⟩
        · exact Or.inr ⟨p, List.mem_cons_of_mem _ hp, by simpa [scanPoints, hq, hlt] using h1⟩
      · have h' := (by simpa [scanPoints, hq, hlt] using h :
          (scanPoints point_id np full rest (i + 1) mi mp).1 = none)
        rcases ih (i + 1) mi mp h' with h1 | ⟨p, hp, h1⟩
        · exact Or.inl (by simpa [scanPoints, hq, hlt] using h1)
        · exact Or.inr ⟨p, List.mem_cons_of_mem _ hp, by simpa [scanPoints, hq, hlt] using h1⟩

theorem scanPoints_some (point_id : ℕ) (np : CachePoint) (full : List CachePoint) :
    ∀ (l : List CachePoint) (i mi : ℕ) (mp : ℚ) (r : List CachePoint),
      (scanPoints point_id np full l i mi mp).1 = some r →
      ∃ j p, l.get? j = some p ∧ p.point_id = point_id ∧ r = full.set (i + j) np := by
  intro l
  induction l with
  | nil => intro i mi mp r h; simp [scanPoints] at h
  | cons q rest ih =>
    intro i mi mp r h
    by_cases hq : q.point_id = point_id
    · refine ⟨0, q, rfl, hq, ?_⟩
      have : some (full.set i np) = some r := by simpa [scanPoints, hq] using h
      simpa using this.symm
    · by_cases hlt : q.priority < mp
      · have h' := (by simpa [scanPoints, hq, hlt] using h :
          (scanPoints point_id np full rest (i + 1) i q.priority).1 = some r)
        rcases ih (i + 1) i q.priority r h' with ⟨j, p, hj, hpid, hr⟩
        exact ⟨j + 1, p, by simpa using hj, hpid, by
          simpa [Nat.add_comm, Nat.add_left_comm, Nat.add_assoc] using hr⟩
      · have h' := (by simpa [scanPoints, hq, hlt] using h :
          (scanPoints point_id np full rest (i + 1) mi mp).1 = some r)
        rcases ih (i + 1) mi mp r h' with ⟨j, p, hj, hpid, hr⟩
        exact ⟨j + 1, p, by simpa using hj, hpid, by
          simpa [Nat.add_comm, Nat.add_left_comm, Nat.add_assoc] using hr⟩

/-! ### List helper lemmas -/

theorem set_get_self {α : Type} : ∀ (l : List α) (i : ℕ) (a : α),
    l.get? i = some a → l.set i a = l := by
  intro l
  induction l with
  | nil => intro i a h; cases i <;> simp at h
  | cons b t ih =>
    intro i a h
    cases i with
    | zero =>
      simp only [List.get?] at h
      injection h with h
      simp [h]
    | succ j =>
      simp only [List.get?] at h
      simp [ih j a h]

theorem nodup_set_fresh {α : Type} : ∀ (l : List α) (i : ℕ) (a : α),
    l.Nodup → a ∉ l → (l.set i a).Nodup := by
  intro l
  induction l with
  | nil => intro i a _ _; simp
  | cons b t ih =>
    intro i a hnd hna
    rcases List.nodup_cons.mp hnd with ⟨hbt, hnt⟩
    cases i with
    | zero =>
      refine List.nodup_cons.mpr ⟨?_, hnt⟩
      intro hmem; exact hna (List.mem_cons_of_mem _ hmem)
    | succ j =>
      refine List.nodup_cons.mpr ⟨?_, ih j a hnt (fun h => hna (List.mem_cons_of_mem _ h))⟩
      intro hmem
      rcases List.mem_or_eq_of_mem_set hmem with h | h
      · exact hbt h
      · exact hna (by simp [h])

/-! ### `_UpdatePoint` characterisations -/

theorem updatePointPurged_false_iff (points : List CachePoint) (point_id : ℕ)
    (priority : ℚ) (exp_time : ℤ) :
    ((updatePointPurged points point_id priority exp_time).1 = false ↔
      points.length = MAX_POINTS_PER_SECTOR ∧
      (∀ p ∈ points, p.point_id ≠ point_id) ∧
      (∀ p ∈ points, priority ≤ p.priority)) ∧
    ((updatePointPurged points point_id priority exp_time).1 = false →
      (updatePointPurged points point_id priority exp_time).2 = points) := by
  cases hl : points with
  | nil => constructor
           · constructor
             · intro h; simp [updatePointPurged] at h
             · intro ⟨h, _⟩; simp [MAX_POINTS_PER_SECTOR] at h
           · intro h; simp [updatePointPurged] at h
  | cons p0 rest =>
    rcases hs : scanPoints point_id ⟨point_id, priority, exp_time⟩ (p0 :: rest)
        (p0 :: rest) 0 0 p0.priority with ⟨o, mi, mp⟩
    cases o with
    | some r =>
      have hsome : (scanPoints point_id ⟨point_id, priority, exp_time⟩ (p0 :: rest)
          (p0 :: rest) 0 0 p0.priority).1 = some r := by rw [hs]
      rcases scanPoints_some _ _ _ _ _ _ _ _ hsome with ⟨j, p, hj, hpid, _⟩
      have hmem : p ∈ p0 :: rest := List.get?_mem hj
      constructor
      · constructor
        · intro h; simp [updatePointPurged, hs] at h
        · intro ⟨_, hno, _⟩; exact absurd hpid (hno p hmem)
      · intro h; simp [updatePointPurged, hs] at h
    | none =>
      have hnone : (scanPoints point_id ⟨point_id, priority, exp_time⟩ (p0 :: rest)
          (p0 :: rest) 0 0 p0.priority).1 = none := by rw [hs]
      have hmi : (scanPoints point_id ⟨point_id, priority, exp_time⟩ (p0 :: rest)
          (p0 :: rest) 0 0 p0.priority).2.2 = mp := by rw [hs]
      have hattain : ∃ q ∈ p0 :: rest, mp = q.priority := by
        rcases scanPoints_none_min_attained _ _ _ _ _ _ _ hnone with hat | ⟨p, hp, hat⟩
        · exact ⟨p0, List.mem_cons_self _ _, by rw [← hmi, hat]⟩
        · exact ⟨p, hp, by rw [← hmi, hat]⟩
      by_cases hfull : (p0 :: rest).length = MAX_POINTS_PER_SECTOR
      · by_cases hadm : mp < priority
        · have hU : updatePointPurged (p0 :: rest) point_id priority exp_time =
              (true, (p0 :: rest).set mi ⟨point_id, priority, exp_time⟩) := by
            simp only [updatePointPurged, hs]
            rw [if_pos hfull, if_pos hadm]
          constructor
          · constructor
            · intro h; rw [hU] at h; simp at h
            · intro ⟨_, _, hfloor⟩
              exfalso
              rcases hattain with ⟨q, hqmem, hq⟩
              have : priority ≤ mp := hq ▸ hfloor q hqmem
              exact absurd hadm (not_lt.mpr this)
          · intro h; rw [hU] at h; simp at h
        · have hU : updatePointPurged (p0 :: rest) point_id priority exp_time =
              (false, p0 :: rest) := by
            simp only [updatePointPurged, hs]
            rw [if_pos hfull, if_neg hadm]
          constructor
          · constructor
            · intro _
              refine ⟨hfull, scanPoints_none_no_match _ _ _ _ _ _ _ hnone, ?_⟩
              intro p hp
              rcases scanPoints_none_min_le _ _ _ _ _ _ _ hnone with ⟨_, h2⟩
              have h3 := h2 p hp
              rw [hmi] at h3
              exact (not_lt.mp hadm).trans h3
            · intro _; rw [hU]
          · intro _; rw [hU]
      · have hU : updatePointPurged (p0 :: rest) point_id priority exp_time =
            (true, (p0 :: rest) ++ [⟨point_id, priority, exp_time⟩]) := by
          simp only [updatePointPurged, hs]
          rw [if_neg hfull]
        constructor
        · constructor
          · intro h; rw [hU] at h; simp at h
          · intro ⟨h, _⟩; exact absurd h hfull
        · intro h; rw [hU] at h; simp at h

theorem updatePointPurged_replace (points : List CachePoint) (point_id : ℕ)
    (priority : ℚ) (exp_time : ℤ)
    (hmem : ∃ p ∈ points, p.point_id = point_id) :
    (updatePointPurged points point_id priority exp_time).1 = true ∧
    ∃ j q, points.get? j = some q ∧ q.point_id = point_id ∧
      (updatePointPurged points point_id priority exp_time).2 =
        points.set j ⟨point_id, priority, exp_time⟩ := by
  cases hl : points with
  | nil => rcases hmem with ⟨p, hp, _⟩; rw [hl] at hp; cases hp
  | cons p0 rest =>
    rw [hl] at hmem
    rcases hs : scanPoints point_id ⟨point_id, priority, exp_time⟩ (p0 :: rest)
        (p0 :: rest) 0 0 p0.priority with ⟨o, mi, mp⟩
    cases o with
    | none =>
      have hnone : (scanPoints point_id ⟨point_id, priority, exp_time⟩ (p0 :: rest)
          (p0 :: rest) 0 0 p0.priority).1 = none := by rw [hs]
      rcases hmem with ⟨p, hp, hpid⟩
      exact absurd hpid (scanPoints_none_no_match _ _ _ _ _ _ _ hnone p hp)
    | some r =>
      have hsome : (scanPoints point_id ⟨point_id, priority, exp_time⟩ (p0 :: rest)
          (p0 :: rest) 0 0 p0.priority).1 = some r := by rw [hs]
      rcases scanPoints_some _ _ _ _ _ _ _ _ hsome with ⟨j, q, hj, hqid, hr⟩
      refine ⟨by simp [updatePointPurged, hs], j, q, hj, hqid, ?_⟩
      simp only [updatePointPurged, hs]
      simpa using hr

/-- Claim C1: a `false` return of `updatePointInSector`'s bucket-level core
happens exactly when, after the purge, the bucket holds exactly
`MAX_POINTS_PER_SECTOR` live entries, none carrying the incoming `point_id`,
and every resident's priority is `≥` the incoming priority (so a tie with the
minimum is rejected); a failed call leaves the bucket unchanged apart from the
purge. -/
theorem updatePoint_reject_iff_full_floor (points : List CachePoint) (point_id : ℕ)
    (priority : ℚ) (current_time : ℤ)
    (hassert : updateAssertOK points current_time) :
    ((updatePoint points point_id priority current_time).1 = false ↔
      (removeExpiredPoints points current_time).length = MAX_POINTS_PER_SECTOR ∧
      (∀ p ∈ removeExpiredPoints points current_time, p.point_id ≠ point_id) ∧
      (∀ p ∈ removeExpiredPoints points current_time, priority ≤ p.priority)) ∧
    ((updatePoint points point_id priority current_time).1 = false →
      (updatePoint points point_id priority current_time).2 =
        removeExpiredPoints points current_time) := by
  unfold updatePoint
  exact updatePointPurged_false_iff _ _ _ _

/-- Witness for C1: a bucket of 125 live entries of priority 1 rejects an
incoming priority-1 point (a tie) and is left unchanged apart from the purge. -/
theorem updatePoint_reject_iff_full_floor_witness :
    (updatePoint fullBucket 200 1 0).1 = false ∧
    (updatePoint fullBucket 200 1 0).2 = removeExpiredPoints fullBucket 0 := by
  have h := updatePoint_reject_iff_full_floor fullBucket 200 1 0
    (by unfold updateAssertOK; decide)
  have hf : (updatePoint fullBucket 200 1 0).1 = false :=
    h.1.mpr ⟨by decide, by decide, by decide⟩
  exact ⟨hf, h.2 hf⟩

/-- Claim C5: when the purged bucket already contains an entry with the given
`point_id`, the call returns `true` and replaces that entry in place by
`(point_id, priority, current_time + TTL)`, leaving the bucket size unchanged,
regardless of capacity or the priority floor. -/
theorem updatePoint_replace_in_place (points : List CachePoint) (point_id : ℕ)
    (priority : ℚ) (current_time : ℤ)
    (hassert : updateAssertOK points current_time)
    (hmem : ∃ p ∈ removeExpiredPoints points current_time, p.point_id = point_id) :
    (updatePoint points point_id priority current_time).1 = true ∧
    ∃ j q, (removeExpiredPoints points current_time).get? j = some q ∧
      q.point_id = point_id ∧
      (updatePoint points point_id priority current_time).2 =
        (removeExpiredPoints points current_time).set j
          ⟨point_id, priority, current_time + TTL⟩ ∧
      (updatePoint points point_id priority current_time).2.length =
        (removeExpiredPoints points current_time).length := by
  unfold updatePoint
  rcases updatePointPurged_replace _ point_id priority (current_time + TTL) hmem with
    ⟨h1, j, q, hj, hqid, hr⟩
  exact ⟨h1, j, q, hj, hqid, hr, by rw [hr]; exact List.length_set ..⟩

/-- Witness for C5: updating the only entry of a one-element bucket replaces it
in place with the fresh priority and `exp_time = 0 + 60`. -/
theorem updatePoint_replace_in_place_witness :
    (updatePoint bucket7 7 5 0).1 = true := by
  exact (updatePoint_replace_in_place bucket7 7 5 0
    (by unfold updateAssertOK; decide) (by decide)).1

/-- Claim C3: `GetPointsInSector` returns only entries with
`exp_time > current_time`; an absent key (empty bucket) yields the empty
sequence and leaves the cache untouched; and as a side effect the addressed
bucket is replaced by its purged contents, all other keys unchanged. -/
theorem getPointsInSector_ttl (c : Cache) (app_id subject_id : ℕ) (sector_id : SectorId)
    (zoom_level : ℕ) (current_time : ℤ) :
    (∀ p ∈ (getPointsInSector c app_id subject_id sector_id zoom_level current_time).1,
        current_time < p.exp_time) ∧
    (c (app_id, subject_id, sector_id, zoom_level) = [] →
      (getPointsInSector c app_id subject_id sector_id zoom_level current_time).1 = [] ∧
      (getPointsInSector c app_id subject_id sector_id zoom_level current_time).2 = c) ∧
    (∀ k, (getPointsInSector c app_id subject_id sector_id zoom_level current_time).2 k =
      if k = (app_id, subject_id, sector_id, zoom_level) then
        removeExpiredPoints (c (app_id, subject_id, sector_id, zoom_level)) current_time
      else c k) := by
  by_cases he : (c (app_id, subject_id, sector_id, zoom_level)).isEmpty
  · have he' : c (app_id, subject_id, sector_id, zoom_level) = [] :=
      List.isEmpty_iff.mp he
    refine ⟨?_, fun _ => ⟨by simp [getPointsInSector, he], by simp [getPointsInSector, he]⟩, ?_⟩
    · intro p hp; simp [getPointsInSector, he] at hp
    · intro k
      simp only [getPointsInSector, he, if_true]
      by_cases hk : k = (app_id, subject_id, sector_id, zoom_level)
      · subst hk; simp [he', removeExpiredPoints]
      · simp [hk]
  · refine ⟨?_, fun h => absurd (List.isEmpty_iff.mpr h) he, ?_⟩
    · intro p hp
      simp only [getPointsInSector, he, if_false] at hp
      have := List.mem_filter.mp hp
      simpa using this.2
    · intro k
      simp only [getPointsInSector, he, if_false]
      by_cases hk : k = (app_id, subject_id, sector_id, zoom_level)
      · subst hk; simp [Function.update]
      · simp [Function.update, hk]

/-- Witness for C3: reading an untouched key of a concrete cache returns the
empty sequence and leaves the cache unchanged. -/
theorem getPointsInSector_ttl_witness :
    (getPointsInSector cacheC3 1 1 (0, 0, 0, 0) 0 50).1 = [] ∧
    (getPointsInSector cacheC3 1 1 (0, 0, 0, 0) 0 50).2 = cacheC3 := by
  exact (getPointsInSector_ttl cacheC3 1 1 (0, 0, 0, 0) 0 50).2.1 (by decide)

/-! ### Well-formedness preservation -/

theorem WFBucket_removeExpired (b : List CachePoint) (t : ℤ) (h : WFBucket b) :
    WFBucket (removeExpiredPoints b t) := by
  constructor
  · exact le_trans (List.length_filter_le _ _) h.1
  · exact ((List.filter_sublist _).map CachePoint.point_id).nodup h.2

theorem WFBucket_updatePointPurged (b : List CachePoint) (point_id : ℕ) (priority : ℚ)
    (exp_time : ℤ) (h : WFBucket b) :
    WFBucket (updatePointPurged b point_id priority exp_time).2 := by
  cases hl : b with
  | nil =>
    constructor
    · simp [updatePointPurged, MAX_POINTS_PER_SECTOR]
    · simp [updatePointPurged]
  | cons p0 rest =>
    rw [hl] at h
    rcases hs : scanPoints point_id ⟨point_id, priority, exp_time⟩ (p0 :: rest)
        (p0 :: rest) 0 0 p0.priority with ⟨o, mi, mp⟩
    cases o with
    | some r =>
      have hsome : (scanPoints point_id ⟨point_id, priority, exp_time⟩ (p0 :: rest)
          (p0 :: rest) 0 0 p0.priority).1 = some r := by rw [hs]
      rcases scanPoints_some _ _ _ _ _ _ _ _ hsome with ⟨j, q, hj, hqid, hr⟩
      constructor
      · simp only [updatePointPurged, hs]
        rw [hr]
        simpa [List.length_set] using h.1
      · simp only [updatePointPurged, hs]
        rw [hr, List.map_set]
        have hjm : ((p0 :: rest).map CachePoint.point_id).get? (0 + j) = some point_id := by
          rw [List.get?_map]
          simp only [Nat.zero_add]
          rw [hj]; simp [hqid]
        rw [set_get_self _ _ _ hjm]
        exact h.2
    | none =>
      have hnone : (scanPoints point_id ⟨point_id, priority, exp_time⟩ (p0 :: rest)
          (p0 :: rest) 0 0 p0.priority).1 = none := by rw [hs]
      have hfresh : point_id ∉ (p0 :: rest).map CachePoint.point_id := by
        intro hmem
        rcases List.mem_map.mp hmem with ⟨p, hp, hpid⟩
        exact scanPoints_none_no_match _ _ _ _ _ _ _ hnone p hp hpid
      by_cases hfull : (p0 :: rest).length = MAX_POINTS_PER_SECTOR
      · by_cases hadm : mp < priority
        · constructor
          · simp only [updatePointPurged, hs, hfull, hadm]
            simp [List.length_set, hfull]
          · simp only [updatePointPurged, hs, hfull, hadm, if_true]
            rw [List.map_set]
            exact nodup_set_fresh _ _ _ h.2 hfresh
        · constructor
          · simp only [updatePointPurged, hs, hfull, hadm]
            simp [hfull]
          · simp only [updatePointPurged, hs, hfull, hadm]
            simpa using h.2
      · constructor
        · simp only [updatePointPurged, hs, hfull]
          have hlt : (p0 :: rest).length < MAX_POINTS_PER_SECTOR :=
            lt_of_le_of_ne h.1 hfull
          simpa using hlt
        · simp only [updatePointPurged, hs, hfull, if_false]
          rw [List.map_append]
          refine List.Nodup.append h.2 (by simp) ?_
          intro a ha hb
          simp at hb
          subst hb
          exact hfresh ha

theorem WFBucket_updatePoint (b : List CachePoint) (point_id : ℕ) (priority : ℚ)
    (current_time : ℤ) (h : WFBucket b) :
    WFBucket (updatePoint b point_id priority current_time).2 := by
  unfold updatePoint
  exact WFBucket_updatePointPurged _ _ _ _ (WFBucket_removeExpired _ _ h)

/-- Claim C4: every cache state reachable from the empty cache by
`UpdatePointInSector` / `GetPointsInSector` calls keeps every bucket at
`≤ MAX_POINTS_PER_SECTOR` entries with pairwise-distinct `point_id`s, and the
`assert len(points) <= 125` inside the update path holds on every reachable
state at every time. -/
theorem reachable_cache_wf (c : Cache) (h : Reachable c) :
    (∀ k, WFBucket (c k)) ∧ (∀ k t, updateAssertOK (c k) t) := by
  have main : ∀ k, WFBucket (c k) := by
    induction h with
    | init => intro k; exact ⟨by simp [MAX_POINTS_PER_SECTOR], by simp⟩
    | update app_id subject_id sector_id zoom_level point_id priority current_time _ ih =>
      intro k
      by_cases hk : k = (app_id, subject_id, sector_id, zoom_level)
      · subst hk
        simp only [updatePointInSector, Function.update_same]
        exact WFBucket_updatePoint _ _ _ _ (ih _)
      · simpa [updatePointInSector, Function.update_noteq hk] using ih k
    | get app_id subject_id sector_id zoom_level current_time c' ih =>
      intro k
      rename_i cc
      by_cases he : (cc (app_id, subject_id, sector_id, zoom_level)).isEmpty
      · simpa [getPointsInSector, he] using ih k
      · by_cases hk : k = (app_id, subject_id, sector_id, zoom_level)
        · subst hk
          simp [getPointsInSector, he, Function.update_same]
          exact WFBucket_removeExpired _ _ (ih _)
        · simpa [getPointsInSector, he, Function.update_noteq hk] using ih k
  refine ⟨main, fun k t => ?_⟩
  exact le_trans (List.length_filter_le _ _) (main k).1

/-- Witness for C4: the cache reached by a single `UpdatePointInSector` call on
the empty cache is well-formed at the touched key. -/
theorem reachable_cache_wf_witness : WFBucket (cacheOne keyA) := by
  exact (reachable_cache_wf cacheOne
    (Reachable.update 0 0 (0, 0, 0, 0) 0 7 1 0 Reachable.init)).1 keyA

/-! ### Sector index (`GeoApi._GetTileSize`, `_GetSectorId`, `_GetNearestSectorIds`)

The sector arithmetic is polymorphic over an ordered field with a floor so the
same definition serves both the rational witnesses and the real-valued
projection outputs.  `int(x * tiles_count)` truncates toward zero, which on the
asserted range `0 ≤ x` is the floor. -/

/-- `GeoApi._GetTileSize`: `1.0 / (1 << zoom_level)`. -/
def getTileSize {α : Type} [LinearOrderedField α] (zoom_level : ℕ) : α :=
  1 / ((2 : α) ^ zoom_level)

/-- `GeoApi._GetSectorId`, including its range asserts. -/
def getSectorId {α : Type} [LinearOrderedField α] [FloorRing α] (coord : α × α × α)
    (zoom_level : ℕ) : Except PyError SectorId :=
  let x := coord.1
  let y := coord.2.1
  let z := coord.2.2
  if ¬(0 ≤ x ∧ x ≤ 1) then .error .assertionError
  else if ¬(0 ≤ y ∧ y ≤ 1) then .error .assertionError
  else if ¬(0 ≤ z ∧ z ≤ 1) then .error .assertionError
  else
    let tiles_count : ℤ := 2 ^ zoom_level
    .ok (min (tiles_count - 1) ⌊x * (tiles_count : α)⌋,
         min (tiles_count - 1) ⌊y * (tiles_count : α)⌋,
         min (tiles_count - 1) ⌊z * (tiles_count : α)⌋,
         zoom_level)

/-- `GeoApi._GetNearestSectorIds`: the 27 sectors `{x±1} × {y±1} × {z±1}` in
source order (the centre sector included). -/
def getNearestSectorIds (s : SectorId) : List SectorId :=
  let (x_id, y_id, z_id, zoom_level) := s
  [(x_id - 1, y_id - 1, z_id - 1, zoom_level),
   (x_id,     y_id - 1, z_id - 1, zoom_level),
   (x_id + 1, y_id - 1, z_id - 1, zoom_level),
   (x_id - 1, y_id,     z_id - 1, zoom_level),
   (x_id,     y_id,     z_id - 1, zoom_level),
   (x_id + 1, y_id,     z_id - 1, zoom_level),
   (x_id - 1, y_id + 1, z_id - 1, zoom_level),
   (x_id,     y_id + 1, z_id - 1, zoom_level),
   (x_id + 1, y_id + 1, z_id - 1, zoom_level),
   (x_id - 1, y_id - 1, z_id,     zoom_level),
   (x_id,     y_id - 1, z_id,     zoom_level),
   (x_id + 1, y_id - 1, z_id,     zoom_level),
   (x_id - 1, y_id,     z_id,     zoom_level),
   (x_id,     y_id,     z_id,     zoom_level),
   (x_id + 1, y_id,     z_id,     zoom_level),
   (x_id - 1, y_id + 1, z_id,     zoom_level),
   (x_id,     y_id + 1, z_id,     zoom_level),
   (x_id + 1, y_id + 1, z_id,     zoom_level),
   (x_id - 1, y_id - 1, z_id + 1, zoom_level),
   (x_id,     y_id - 1, z_id + 1, zoom_level),
   (x_id + 1, y_id - 1, z_id + 1, zoom_level),
   (x_id - 1, y_id,     z_id + 1, zoom_level),
   (x_id,     y_id,     z_id + 1, zoom_level),
   (x_id + 1, y_id,     z_id + 1, zoom_level),
   (x_id - 1, y_id + 1, z_id + 1, zoom_level),
   (x_id,     y_id + 1, z_id + 1, zoom_level),
   (x_id + 1, y_id + 1, z_id + 1, zoom_level)]

/-- The zoom level stored in a cache key. -/
def keyZoom (k : CacheKey) : ℕ := k.2.2.2

/-- The per-subject zoom-climb loop of `GeoApi._UpdatePoint`: starting at the
given zoom, compute the sector of `coord`, call `UpdatePointInSector`, and stop
on a `false` return or after zoom 0; otherwise continue at `zoom - 1`.  Returns
the final cache, the last zoom processed, and whether the climb ended in a
rejection. -/
def updatePointClimb (app_id subject_id point_id : ℕ) (priority : ℚ)
    {α : Type} [LinearOrderedField α] [FloorRing α] (coord : α × α × α)
    (current_time : ℤ) : ℕ → Cache → Except PyError (Cache × ℕ × Bool)
  | 0, c =>
    match getSectorId coord 0 with
    | .error e => .error e
    | .ok sector_id =>
      let r := updatePointInSector c app_id subject_id sector_id 0 point_id priority
        current_time
      if r.1 then .ok (r.2, 0, false) else .ok (r.2, 0, true)
  | (z + 1), c =>
    match getSectorId coord (z + 1) with
    | .error e => .error e
    | .ok sector_id =>
      let r := updatePointInSector c app_id subject_id sector_id (z + 1) point_id priority
        current_time
      if r.1 then
        updatePointClimb app_id subject_id point_id priority coord current_time z r.2
      else .ok (r.2, z + 1, true)

/-- A bucket of 125 live entries of priority 2 (ids 0–124). -/
def fullBucket2 : List CachePoint :=
  (List.range MAX_POINTS_PER_SECTOR).map (fun i => ⟨i, 2, 100⟩)

/-- The zoom-1 sector key of the cube origin. -/
def keyB : CacheKey := (0, 0, (0, 0, 0, 1), 1)

/-- A cache whose only occupied bucket is `fullBucket2` at `keyB`. -/
def cacheB : Cache := fun k => if k = keyB then fullBucket2 else []

theorem removeExpired_idem (b : List CachePoint) (t : ℤ) :
    removeExpiredPoints (removeExpiredPoints b t) t = removeExpiredPoints b t := by
  simp [removeExpiredPoints, List.filter_filter]

theorem updatePoint_false_state (b : List CachePoint) (point_id : ℕ) (priority : ℚ)
    (current_time : ℤ) (h : (updatePoint b point_id priority current_time).1 = false) :
    (updatePoint b point_id priority current_time).2 =
      removeExpiredPoints b current_time :=
  (updatePointPurged_false_iff (removeExpiredPoints b current_time) point_id priority
    (current_time + TTL)).2 h

/-- A bucket that just rejected a point still rejects it: the failed call only
purged the bucket, and purging is idempotent. -/
theorem updatePoint_false_again (b : List CachePoint) (point_id : ℕ) (priority : ℚ)
    (current_time : ℤ) (h : (updatePoint b point_id priority current_time).1 = false) :
    updatePoint (removeExpiredPoints b current_time) point_id priority current_time =
      (false, removeExpiredPoints b current_time) := by
  have heq : updatePoint (removeExpiredPoints b current_time) point_id priority current_time =
      updatePoint b point_id priority current_time := by
    unfold updatePoint
    rw [removeExpired_idem]
  rw [heq]
  exact Prod.ext h (updatePoint_false_state b point_id priority current_time h)

theorem updatePointClimb_spec (app_id subject_id point_id : ℕ) (priority : ℚ)
    {α : Type} [LinearOrderedField α] [FloorRing α] (coord : α × α × α)
    (current_time : ℤ) :
    ∀ (zoom_level : ℕ) (c c' : Cache) (zstop : ℕ) (rej : Bool),
      updatePointClimb app_id subject_id point_id priority coord current_time zoom_level c =
        .ok (c', zstop, rej) →
      zstop ≤ zoom_level ∧
      (rej = false → zstop = 0) ∧
      (∀ k, keyZoom k < zstop → c' k = c k) ∧
      (∀ k, c' k ≠ c k →
        k.1 = app_id ∧ k.2.1 = subject_id ∧ zstop ≤ keyZoom k ∧ keyZoom k ≤ zoom_level) ∧
      (rej = true → ∃ sector_id, getSectorId coord zstop = Except.ok sector_id ∧
        updatePoint (c' (app_id, subject_id, sector_id, zstop)) point_id priority
          current_time =
          (false, c' (app_id, subject_id, sector_id, zstop))) := by
  intro zoom_level
  induction zoom_level with
  | zero =>
    intro c c' zstop rej h
    cases hsec : getSectorId coord 0 with
    | error e => rw [updatePointClimb, hsec] at h; cases h
    | ok sector_id =>
      rw [updatePointClimb, hsec] at h
      simp only at h
      set r := updatePointInSector c app_id subject_id sector_id 0 point_id priority
        current_time with hr
      have hc2 : r.2 = Function.update c (app_id, subject_id, sector_id, 0)
          (updatePoint (c (app_id, subject_id, sector_id, 0)) point_id priority
            current_time).2 := rfl
      cases hb : r.1 with
      | true =>
        rw [hb, if_pos rfl] at h
        obtain ⟨hc', hz, hrej⟩ : r.2 = c' ∧ 0 = zstop ∧ false = rej := by
          simpa using h
        subst hc'; subst hz; subst hrej
        refine ⟨le_refl _, fun _ => rfl, fun k hk => absurd hk (Nat.not_lt_zero _), ?_, ?_⟩
        · intro k hk
          by_cases hkk : k = (app_id, subject_id, sector_id, 0)
          · subst hkk; exact ⟨rfl, rfl, Nat.zero_le _, Nat.le_refl _⟩
          · rw [hc2, Function.update_noteq hkk] at hk; exact absurd rfl hk
        · intro hfalse; simp at hfalse
      | false =>
        rw [hb, if_neg (by simp)] at h
        obtain ⟨hc', hz, hrej⟩ : r.2 = c' ∧ 0 = zstop ∧ true = rej := by
          simpa using h
        subst hc'; subst hz; subst hrej
        refine ⟨le_refl _, fun hf => by simp at hf, fun k hk => absurd hk (Nat.not_lt_zero _),
          ?_, ?_⟩
        · intro k hk
          by_cases hkk : k = (app_id, subject_id, sector_id, 0)
          · subst hkk; exact ⟨rfl, rfl, Nat.zero_le _, Nat.le_refl _⟩
          · rw [hc2, Function.update_noteq hkk] at hk; exact absurd rfl hk
        · intro _
          refine ⟨sector_id, hsec, ?_⟩
          have hfalse : (updatePoint (c (app_id, subject_id, sector_id, 0)) point_id priority
              current_time).1 = false := hb
          have hval : r.2 (app_id, subject_id, sector_id, 0) =
              removeExpiredPoints (c (app_id, subject_id, sector_id, 0)) current_time := by
            rw [hc2, Function.update_same]
            exact updatePoint_false_state _ _ _ _ hfalse
          rw [hval]
          exact updatePoint_false_again _ _ _ _ hfalse
  | succ z ih =>
    intro c c' zstop rej h
    cases hsec : getSectorId coord (z + 1) with
    | error e => rw [updatePointClimb, hsec] at h; cases h
    | ok sector_id =>
      rw [updatePointClimb, hsec] at h
      simp only at h
      set r := updatePointInSector c app_id subject_id sector_id (z + 1) point_id priority
        current_time with hr
      have hc2 : r.2 = Function.update c (app_id, subject_id, sector_id, z + 1)
          (updatePoint (c (app_id, subject_id, sector_id, z + 1)) point_id priority
            current_time).2 := rfl
      cases hb : r.1 with
      | true =>
        rw [hb, if_pos rfl] at h
        rcases ih r.2 c' zstop rej h with ⟨h1, h2, h3, h4, h5⟩
        refine ⟨Nat.le_succ_of_le h1, h2, ?_, ?_, h5⟩
        · intro k hk
          have hkk : k ≠ (app_id, subject_id, sector_id, z + 1) := by
            intro hkeq
            rw [hkeq] at hk
            exact absurd (lt_of_lt_of_le hk h1) (by simp [keyZoom])
          rw [h3 k hk, hc2, Function.update_noteq hkk]
        · intro k hk
          by_cases hmid : r.2 k = c k
          · rcases h4 k (by rw [← hmid] at hk; exact hk) with ⟨ha, hb', hz1, hz2⟩
            exact ⟨ha, hb', hz1, Nat.le_succ_of_le hz2⟩
          · have hkk : k = (app_id, subject_id, sector_id, z + 1) := by
              by_contra hne
              rw [hc2, Function.update_noteq hne] at hmid
              exact hmid rfl
            subst hkk
            exact ⟨rfl, rfl, by simpa [keyZoom] using Nat.le_succ_of_le h1,
              by simp [keyZoom]⟩
      | false =>
        rw [hb, if_neg (by simp)] at h
        obtain ⟨hc', hz, hrej⟩ : r.2 = c' ∧ z + 1 = zstop ∧ true = rej := by
          simpa using h
        subst hc'; subst hz; subst hrej
        refine ⟨le_refl _, fun hf => by simp at hf, ?_, ?_, ?_⟩
        · intro k hk
          have hkk : k ≠ (app_id, subject_id, sector_id, z + 1) := by
            intro hkeq
            rw [hkeq] at hk
            simp [keyZoom] at hk
          rw [hc2, Function.update_noteq hkk]
        · intro k hk
          by_cases hkk : k = (app_id, subject_id, sector_id, z + 1)
          · subst hkk; exact ⟨rfl, rfl, by simp [keyZoom], by simp [keyZoom]⟩
          · rw [hc2, Function.update_noteq hkk] at hk; exact absurd rfl hk
        · intro _
          refine ⟨sector_id, hsec, ?_⟩
          have hfalse : (updatePoint (c (app_id, subject_id, sector_id, z + 1)) point_id
              priority current_time).1 = false := hb
          have hval : r.2 (app_id, subject_id, sector_id, z + 1) =
              removeExpiredPoints (c (app_id, subject_id, sector_id, z + 1)) current_time := by
            rw [hc2, Function.update_same]
            exact updatePoint_false_state _ _ _ _ hfalse
          rw [hval]
          exact updatePoint_false_again _ _ _ _ hfalse

theorem updatePointClimb_reads (app_id subject_id point_id : ℕ) (priority : ℚ)
    {α : Type} [LinearOrderedField α] [FloorRing α] (coord : α × α × α)
    (current_time : ℤ) :
    ∀ (zoom_level : ℕ) (c c' : Cache) (zstop : ℕ) (rej : Bool) (c₂ : Cache),
      updatePointClimb app_id subject_id point_id priority coord current_time zoom_level c =
        .ok (c', zstop, rej) →
      (∀ k, zstop ≤ keyZoom k → c₂ k = c k) →
      ∃ c₂', updatePointClimb app_id subject_id point_id priority coord current_time
          zoom_level c₂ = .ok (c₂', zstop, rej) ∧
        (∀ k, zstop ≤ keyZoom k → c₂' k = c' k) ∧
        (∀ k, keyZoom k < zstop → c₂' k = c₂ k) := by
  intro zoom_level
  induction zoom_level with
  | zero =>
    intro c c' zstop rej c₂ h hagree
    cases hsec : getSectorId coord 0 with
    | error e => rw [updatePointClimb, hsec] at h; cases h
    | ok sector_id =>
      rw [updatePointClimb, hsec] at h
      simp only at h
      have hz0 : zstop = 0 := by
        rcases updatePointClimb_spec app_id subject_id point_id priority coord current_time
          0 c c' zstop rej (by rw [updatePointClimb, hsec]; simpa using h) with ⟨h1, _⟩
        exact Nat.le_zero.mp h1
      subst hz0
      have hkey : c₂ (app_id, subject_id, sector_id, 0) =
          c (app_id, subject_id, sector_id, 0) := hagree _ (Nat.zero_le _)
      rw [updatePointClimb, hsec]
      simp only [updatePointInSector] at h ⊢
      set u := updatePoint (c (app_id, subject_id, sector_id, 0)) point_id priority
        current_time with hu
      have hsame : updatePoint (c₂ (app_id, subject_id, sector_id, 0)) point_id priority
          current_time = u := by rw [hkey]
      rw [hsame]
      cases hb : u.1 with
      | true =>
        rw [if_pos hb] at h
        rw [if_pos rfl]
        obtain ⟨hc', _, hrej⟩ : Function.update c (app_id, subject_id, sector_id, 0) u.2 = c'
            ∧ (0 : ℕ) = 0 ∧ false = rej := by simpa using h
        refine ⟨Function.update c₂ (app_id, subject_id, sector_id, 0) u.2, by
          simpa using hrej, ?_, fun k hk => absurd hk (Nat.not_lt_zero _)⟩
        intro k _
        by_cases hkk : k = (app_id, subject_id, sector_id, 0)
        · subst hkk; rw [Function.update_same, ← hc', Function.update_same]
        · rw [Function.update_noteq hkk, ← hc', Function.update_noteq hkk]
          exact hagree k (Nat.zero_le _)
      | false =>
        rw [if_neg (by simp [hb])] at h
        rw [if_neg (by simp)]
        obtain ⟨hc', _, hrej⟩ : Function.update c (app_id, subject_id, sector_id, 0) u.2 = c'
            ∧ (0 : ℕ) = 0 ∧ true = rej := by simpa using h
        refine ⟨Function.update c₂ (app_id, subject_id, sector_id, 0) u.2, by
          simpa using hrej, ?_, fun k hk => absurd hk (Nat.not_lt_zero _)⟩
        intro k _
        by_cases hkk : k = (app_id, subject_id, sector_id, 0)
        · subst hkk; rw [Function.update_same, ← hc', Function.update_same]
        · rw [Function.update_noteq hkk, ← hc', Function.update_noteq hkk]
          exact hagree k (Nat.zero_le _)
  | succ z ih =>
    intro c c' zstop rej c₂ h hagree
    cases hsec : getSectorId coord (z + 1) with
    | error e => rw [updatePointClimb, hsec] at h; cases h
    | ok sector_id =>
      have hspec := updatePointClimb_spec app_id subject_id point_id priority coord
        current_time (z + 1) c c' zstop rej h
      have hzle : zstop ≤ z + 1 := hspec.1
      rw [updatePointClimb, hsec] at h
      simp only at h
      have hkey : c₂ (app_id, subject_id, sector_id, z + 1) =
          c (app_id, subject_id, sector_id, z + 1) := by
        refine hagree _ ?_
        simpa [keyZoom] using hzle
      rw [updatePointClimb, hsec]
      simp only [updatePointInSector] at h ⊢
      set u := updatePoint (c (app_id, subject_id, sector_id, z + 1)) point_id priority
        current_time with hu
      have hsame : updatePoint (c₂ (app_id, subject_id, sector_id, z + 1)) point_id priority
          current_time = u := by rw [hkey]
      rw [hsame]
      cases hb : u.1 with
      | true =>
        rw [if_pos hb] at h
        rw [if_pos rfl]
        have hagree' : ∀ k, zstop ≤ keyZoom k →
            Function.update c₂ (app_id, subject_id, sector_id, z + 1) u.2 k =
            Function.update c (app_id, subject_id, sector_id, z + 1) u.2 k := by
          intro k hk
          by_cases hkk : k = (app_id, subject_id, sector_id, z + 1)
          · subst hkk; rw [Function.update_same, Function.update_same]
          · rw [Function.update_noteq hkk, Function.update_noteq hkk]
            exact hagree k hk
        rcases ih _ c' zstop rej _ h hagree' with ⟨c₂', hrun, hhigh, hlow⟩
        refine ⟨c₂', hrun, hhigh, ?_⟩
        intro k hk
        rw [hlow k hk, Function.update_noteq]
        intro hkeq
        rw [hkeq] at hk
        simp [keyZoom] at hk
        have := lt_of_le_of_lt hzle hk
        omega
      | false =>
        rw [if_neg (by simp [hb])] at h
        rw [if_neg (by simp)]
        obtain ⟨hc', hz, hrej⟩ : Function.update c (app_id, subject_id, sector_id, z + 1) u.2
            = c' ∧ z + 1 = zstop ∧ true = rej := by simpa using h
        refine ⟨Function.update c₂ (app_id, subject_id, sector_id, z + 1) u.2, by
          rw [hz, hrej], ?_, ?_⟩
        · intro k hk
          by_cases hkk : k = (app_id, subject_id, sector_id, z + 1)
          · subst hkk; rw [Function.update_same, ← hc', Function.update_same]
          · rw [Function.update_noteq hkk, ← hc', Function.update_noteq hkk]
            exact hagree k hk
        · intro k hk
          rw [Function.update_noteq]
          intro hkeq
          rw [hkeq] at hk
          rw [← hz] at hk
          simp [keyZoom] at hk

/-- Claim C6: one subject's zoom-climb calls `UpdatePointInSector` at
`maxZ, maxZ - 1, …` and stops at the first rejection (or after zoom 0
succeeds): the climb that stops at `zstop` leaves every bucket at a zoom
coarser than `zstop` unchanged, writes only keys of this app and subject with
zoom in `[zstop, maxZ]`, does not read any bucket below `zstop` (its behaviour
and effects are invariant under changing those buckets), and on a rejection the
bucket now stored at the rejecting key still rejects the point. -/
theorem updatePointClimb_frame (app_id subject_id point_id : ℕ) (priority : ℚ)
    {α : Type} [LinearOrderedField α] [FloorRing α] (coord : α × α × α)
    (current_time : ℤ) (zoom_level : ℕ) (c c' : Cache) (zstop : ℕ) (rej : Bool)
    (hclimb : updatePointClimb app_id subject_id point_id priority coord current_time
      zoom_level c = .ok (c', zstop, rej)) :
    zstop ≤ zoom_level ∧
    (rej = false → zstop = 0) ∧
    (∀ k, keyZoom k < zstop → c' k = c k) ∧
    (∀ k, c' k ≠ c k →
      k.1 = app_id ∧ k.2.1 = subject_id ∧ zstop ≤ keyZoom k ∧ keyZoom k ≤ zoom_level) ∧
    (rej = true → ∃ sector_id, getSectorId coord zstop = Except.ok sector_id ∧
      updatePoint (c' (app_id, subject_id, sector_id, zstop)) point_id priority
        current_time = (false, c' (app_id, subject_id, sector_id, zstop))) ∧
    (∀ c₂ : Cache, (∀ k, zstop ≤ keyZoom k → c₂ k = c k) →
      ∃ c₂', updatePointClimb app_id subject_id point_id priority coord current_time
          zoom_level c₂ = .ok (c₂', zstop, rej) ∧
        (∀ k, zstop ≤ keyZoom k → c₂' k = c' k) ∧
        (∀ k, keyZoom k < zstop → c₂' k = c₂ k)) := by
  rcases updatePointClimb_spec app_id subject_id point_id priority coord current_time
    zoom_level c c' zstop rej hclimb with ⟨h1, h2, h3, h4, h5⟩
  exact ⟨h1, h2, h3, h4, h5, fun c₂ ha =>
    updatePointClimb_reads app_id subject_id point_id priority coord current_time
      zoom_level c c' zstop rej c₂ hclimb ha⟩

/-- Witness for C6: starting at zoom 1 over a full priority-2 bucket, a
priority-1 point is rejected at zoom 1 and the zoom-0 sector is not touched. -/
theorem updatePointClimb_frame_witness :
    Function.update cacheB keyB fullBucket2 keyA = cacheB keyA := by
  have hsec : getSectorId ((0 : ℚ), 0, 0) 1 = Except.ok ((0 : ℤ), 0, 0, 1) := by
    unfold getSectorId
    rw [if_neg (by norm_num), if_neg (by norm_num), if_neg (by norm_num)]
    norm_num
  have hupd : updatePoint fullBucket2 200 1 0 = (false, fullBucket2) := by rfl
  have hclimb : updatePointClimb 0 0 200 1 ((0 : ℚ), 0, 0) 0 1 cacheB =
      .ok (Function.update cacheB keyB fullBucket2, 1, true) := by
    rw [updatePointClimb, hsec]
    simp only [updatePointInSector]
    rw [show cacheB (0, 0, ((0 : ℤ), 0, 0, 1), 1) = fullBucket2 from rfl, hupd]
    rfl
  have h := updatePointClimb_frame 0 0 200 1 ((0 : ℚ), 0, 0) 0 1 cacheB
    (Function.update cacheB keyB fullBucket2) 1 true hclimb
  exact h.2.2.1 keyA (by decide)

/-! ### AppStorage (`AppStorage._APPS` and accessors)

Python dicts become association lists with first-match lookup; a missing key
raises `KeyError`. -/

/-- Python dict lookup: `d.get(k)` / successful `d[k]`. -/
def dictGet {β : Type} : List (ℕ × β) → ℕ → Option β
  | [], _ => none
  | (k', v) :: rest, k => if k' = k then some v else dictGet rest k

/-- Python dict assignment `d[k] = v` (replace in place, insert when absent). -/
def dictSet {β : Type} : List (ℕ × β) → ℕ → β → List (ℕ × β)
  | [], k, v => [(k, v)]
  | (k', v') :: rest, k, v =>
    if k' = k then (k, v) :: rest else (k', v') :: dictSet rest k v

/-- `AppStorage._Point` namedtuple `(subjects, coord)`; `coord` is the last
published unit-cube coordinate or `None` (as left by `AddPoint`). -/
structure AppPoint where
  subjects : List (ℕ × ℚ)
  coord : Option (ℝ × ℝ × ℝ)

/-- `AppStorage._App` namedtuple
`(auth_key, hmac_key, max_zoom_level, points)`; the opaque random key strings
are modelled as naturals. -/
structure App where
  auth_key : ℕ
  hmac_key : ℕ
  max_zoom_level : ℕ
  points : List (ℕ × AppPoint)

/-- `AppStorage._APPS`. -/
abbrev Apps := List (ℕ × App)

/-- `_APPS[app_id]`, raising `KeyError` when the app is absent. -/
def getApp (apps : Apps) (app_id : ℕ) : Except PyError App :=
  match dictGet apps app_id with
  | some a => .ok a
  | none => .error .keyError

/-- `AppStorage.GetHmacKey`. -/
def getHmacKey (apps : Apps) (app_id : ℕ) : Except PyError ℕ :=
  match getApp apps app_id with
  | .error e => .error e
  | .ok a => .ok a.hmac_key

/-- `AppStorage.GetMaxZoomLevel`. -/
def getMaxZoomLevel (apps : Apps) (app_id : ℕ) : Except PyError ℕ :=
  match getApp apps app_id with
  | .error e => .error e
  | .ok a => .ok a.max_zoom_level

/-- `AppStorage.HasPoint`: `point_id in _APPS[app_id].points`. -/
def hasPoint (apps : Apps) (app_id point_id : ℕ) : Except PyError Bool :=
  match getApp apps app_id with
  | .error e => .error e
  | .ok a => .ok (dictGet a.points point_id).isSome

/-- `AppStorage.AddPoint`:
`points[point_id] = Point(subjects=tuple(), coord=None)`. -/
def addPoint (apps : Apps) (app_id point_id : ℕ) : Except PyError Apps :=
  match dictGet apps app_id with
  | none => .error .keyError
  | some a =>
    .ok (dictSet apps app_id
      { a with points := dictSet a.points point_id ⟨[], none⟩ })

/-- `AppStorage.GetPointSubjects`: `KeyError` when the point is absent. -/
def getPointSubjects (apps : Apps) (app_id point_id : ℕ) :
    Except PyError (List (ℕ × ℚ)) :=
  match getApp apps app_id with
  | .error e => .error e
  | .ok a =>
    match dictGet a.points point_id with
    | some p => .ok p.subjects
    | none => .error .keyError

/-- `AppStorage.SetPointCoord`: `KeyError` when the point is absent. -/
def setPointCoord (apps : Apps) (app_id point_id : ℕ) (coord : ℝ × ℝ × ℝ) :
    Except PyError Apps :=
  match dictGet apps app_id with
  | none => .error .keyError
  | some a =>
    match dictGet a.points point_id with
    | none => .error .keyError
    | some p =>
      .ok (dictSet apps app_id
        { a with points := dictSet a.points point_id { p with coord := some coord } })

/-- `AppStorage.GetPointsCoords`: the ids present in the roster, in input
order, paired with their stored coordinate (possibly `None`). -/
def getPointsCoords (apps : Apps) (app_id : ℕ) (points_ids : List ℕ) :
    Except PyError (List (ℕ × Option (ℝ × ℝ × ℝ))) :=
  match getApp apps app_id with
  | .error e => .error e
  | .ok a =>
    .ok (points_ids.filterMap
      (fun pid => (dictGet a.points pid).map (fun p => (pid, p.coord))))

/-! ### Token layer (`AuthUtils`) -/

/-- The per-method `params` bound into a geo token. -/
inductive GeoParams where
  | noParams
  | subject (subject_id : ℕ)
  | points (points_ids : List ℕ)
deriving DecidableEq

/-- The signed message `(app_id, point_id, method_id, params, exp_time)`. -/
structure GeoMsg where
  app_id : ℕ
  point_id : ℕ
  method_id : ℕ
  params : GeoParams
  exp_time : ℤ
deriving DecidableEq

/-- `AuthUtils.ValidateGeoAuthToken`, parameterised by the HMAC digest
function `H` (modelling `hmac.new(hmac_key, str(msg)).digest()` abstractly):
recompute and compare the HMAC (`invalid hmac` on mismatch), then reject when
`exp_time < time.time()` (note: strict), then require `HasPoint`. -/
def validateGeoAuthToken (H : ℕ → GeoMsg → ℕ) (apps : Apps) (token : GeoMsg × ℕ)
    (current_time : ℤ) : Except PyError (ℕ × ℕ × ℕ × GeoParams) :=
  let (msg, msg_hmac) := token
  match getHmacKey apps msg.app_id with
  | .error e => .error e
  | .ok hmac_key =>
    if H hmac_key msg ≠ msg_hmac then .error .invalidHmac
    else if msg.exp_time < current_time then .error .tokenExpired
    else
      match hasPoint apps msg.app_id msg.point_id with
      | .error e => .error e
      | .ok hp =>
        if hp then .ok (msg.app_id, msg.point_id, msg.method_id, msg.params)
        else .error .noSuchPoint

/-! ### `GeoApi` constants and the radius-driven starting zoom -/

/-- `GeoApi._EARTH_RADIUS`, metres. -/
def EARTH_RADIUS : ℕ := 6371 * 1000

/-- `GeoApi._DEFAULT_POINTS_LIMIT`. -/
def DEFAULT_POINTS_LIMIT : ℕ := 100

/-- `GeoApi._GetZoomLevel` with an integer `radius` (as the driver passes).
Under Python 2, `(self._EARTH_RADIUS * 2) / radius` is floor division on
integers, and `math.log(0, 2)` raises `ValueError: math domain error`; for
`multiplier ≥ 1`, `int(math.log(multiplier, 2))` is `Nat.log 2 multiplier`. -/
def getZoomLevel (apps : Apps) (app_id : ℕ) (radius : ℤ) : Except PyError ℕ :=
  match getApp apps app_id with
  | .error e => .error e
  | .ok a =>
    let max_zoom_level := a.max_zoom_level
    if radius ≤ 0 then .ok max_zoom_level
    else
      let multiplier : ℤ := (EARTH_RADIUS * 2 : ℤ) / radius
      if multiplier ≤ 0 then .error .valueError
      else
        let zoom_level : ℤ := (Nat.log 2 multiplier.toNat : ℤ)
        if zoom_level < 0 then .ok 0
        else if zoom_level > (max_zoom_level : ℤ) then .ok max_zoom_level
        else .ok zoom_level.toNat

/-- Modelled from the spec's words for comparison with `getZoomLevel`:
`clamp(floor(log2((2·R)/radius)), 0, maxZ)` with exact real division
(`Int.log 2 q` is `⌊log₂ q⌋` for `q ≥ 1`). -/
def specStartingZoom (max_zoom_level : ℕ) (radius : ℚ) : ℤ :=
  max 0 (min (max_zoom_level : ℤ) (Int.log 2 ((2 * (EARTH_RADIUS : ℚ)) / radius)))

/-! ### Candidate accumulation (`GeoApi._ExtendPoints`) -/

/-- A record of `_NearestPoints`' `points_map`: the dict literal with keys
`point_id`, `priority`, `exp_time`, to which `_AddMissingCoordAndDistance`
later adds `coord` (a stored coordinate, possibly `None`) and `distance`.
The outer `Option` on those two fields models the key being absent. -/
structure PMRec where
  point_id : ℕ
  priority : ℚ
  exp_time : ℤ
  coord : Option (Option (ℝ × ℝ × ℝ)) := none
  distance : Option ℝ := none

/-- `GeoApi._ExtendPoints`: walk the fetched bucket in order; an entry whose
`point_id` is already a key of `points_map` is skipped (`continue`), otherwise
the fresh three-field record is inserted. -/
def extendPoints (points_map : List (ℕ × PMRec)) (points : List CachePoint) :
    List (ℕ × PMRec) :=
  points.foldl
    (fun m p =>
      if (dictGet m p.point_id).isSome then m
      else dictSet m p.point_id ⟨p.point_id, p.priority, p.exp_time, none, none⟩)
    points_map

/-! Concrete inputs for the stage-4 witnesses. -/

/-- A roster point with no published coordinate, as left by `AddPoint`. -/
def appPoint7 : AppPoint := ⟨[], none⟩

/-- A tenant with `max_zoom_level = 20` and the single point 7. -/
def app1 : App := ⟨11, 22, 20, [(7, appPoint7)]⟩

/-- A one-tenant store. -/
def apps1 : Apps := [(1, app1)]

/-- A constant HMAC digest function. -/
def hmacConst : ℕ → GeoMsg → ℕ := fun _ _ => 0

/-- A NEAREST_POINTS token message expiring at time 100. -/
def msgT : GeoMsg := ⟨1, 7, 2, .subject 5, 100⟩

/-- A candidate map already holding point 5 with `exp_time = 100`. -/
def mapC2 : List (ℕ × PMRec) := [(5, ⟨5, 1, 100, none, none⟩)]

/-- A fresher cache entry for point 5 (`exp_time = 200`). -/
def pointC2 : CachePoint := ⟨5, 2, 200⟩

/-! ### Dictionary lemmas -/

theorem dictGet_dictSet_self {β : Type} : ∀ (m : List (ℕ × β)) (k : ℕ) (v : β),
    dictGet (dictSet m k v) k = some v := by
  intro m
  induction m with
  | nil => intro k v; simp [dictGet, dictSet]
  | cons kv rest ih =>
    intro k v
    obtain ⟨k', v'⟩ := kv
    by_cases h : k' = k
    · subst h; simp [dictGet, dictSet]
    · simp [dictGet, dictSet, h, ih]

theorem dictGet_dictSet_ne {β : Type} : ∀ (m : List (ℕ × β)) (k k' : ℕ) (v : β),
    k' ≠ k → dictGet (dictSet m k v) k' = dictGet m k' := by
  intro m
  induction m with
  | nil => intro k k' v hne; simp [dictGet, dictSet, Ne.symm hne]
  | cons kv rest ih =>
    intro k k' v hne
    obtain ⟨k0, v0⟩ := kv
    by_cases h : k0 = k
    · subst h; simp [dictGet, dictSet, Ne.symm hne]
    · by_cases h' : k0 = k'
      · subst h'; simp [dictGet, dictSet, h]
      · simp [dictGet, dictSet, h, h', ih _ _ _ hne]

/-! ### C8: token expiry boundary -/

theorem getHmacKey_error (apps : Apps) (app_id : ℕ) (e : PyError)
    (h : getHmacKey apps app_id = .error e) : e = .keyError := by
  unfold getHmacKey getApp at h
  cases hd : dictGet apps app_id <;> rw [hd] at h
  · injection h with h; exact h.symm
  · cases h

theorem hasPoint_error (apps : Apps) (app_id point_id : ℕ) (e : PyError)
    (h : hasPoint apps app_id point_id = .error e) : e = .keyError := by
  unfold hasPoint getApp at h
  cases hd : dictGet apps app_id <;> rw [hd] at h
  · injection h with h; exact h.symm
  · cases h

/-- Claim C8 (amended): `ValidateGeoAuthToken` raises `TokenExpired` exactly
when the HMAC check passes and `exp_time < now` — strict comparison, so a
token validated at the instant `now = exp_time` passes the expiry check, and
every token with `exp_time ≥ now` proceeds past it. -/
theorem validate_tokenExpired_iff (H : ℕ → GeoMsg → ℕ) (apps : Apps) (msg : GeoMsg)
    (msg_hmac : ℕ) (current_time : ℤ) :
    validateGeoAuthToken H apps (msg, msg_hmac) current_time =
        Except.error PyError.tokenExpired ↔
      ((∃ hmac_key, getHmacKey apps msg.app_id = Except.ok hmac_key ∧
          H hmac_key msg = msg_hmac) ∧ msg.exp_time < current_time) := by
  cases hk : getHmacKey apps msg.app_id with
  | error e =>
    have he : e = .keyError := getHmacKey_error _ _ _ hk
    subst he
    simp only [validateGeoAuthToken, hk]
    constructor
    · intro h; simp at h
    · rintro ⟨⟨k, hkk, _⟩, _⟩
      cases hkk
  | ok hmac_key =>
    simp only [validateGeoAuthToken, hk]
    by_cases hh : H hmac_key msg ≠ msg_hmac
    · rw [if_pos hh]
      constructor
      · intro h; simp at h
      · rintro ⟨⟨k, hkk, hhk⟩, _⟩
        injection hkk with h'
        subst h'
        exact absurd hhk hh
    · rw [if_neg hh]
      have hh' : H hmac_key msg = msg_hmac := not_not.mp hh
      by_cases hexp : msg.exp_time < current_time
      · rw [if_pos hexp]
        exact ⟨fun _ => ⟨⟨hmac_key, rfl, hh'⟩, hexp⟩, fun _ => rfl⟩
      · rw [if_neg hexp]
        constructor
        · intro h
          cases hp : hasPoint apps msg.app_id msg.point_id with
          | error e =>
            rw [hp] at h
            have := hasPoint_error _ _ _ _ hp
            subst this
            cases h
          | ok b =>
            rw [hp] at h
            cases b <;> simp at h
        · rintro ⟨_, hlt⟩; exact absurd hlt hexp

/-- Counterexample to C8 as stated: a token whose `exp_time` equals the
validation instant (`exp_time = now = 100`, so `exp_time ≤ now`) is accepted,
because the source tests `exp_time < time.time()`. -/
theorem validate_boundary_accepted :
    validateGeoAuthToken hmacConst apps1 (msgT, 0) 100 =
      Except.ok (1, 7, 2, GeoParams.subject 5) ∧ msgT.exp_time ≤ 100 := by
  exact ⟨rfl, by decide⟩

/-- Witness for C8: with the HMAC matching, a token one second past its
`exp_time` is rejected with `TokenExpired`. -/
theorem validate_tokenExpired_iff_witness :
    validateGeoAuthToken hmacConst apps1 (msgT, 0) 101 =
      Except.error PyError.tokenExpired := by
  exact (validate_tokenExpired_iff hmacConst apps1 msgT 0 101).mpr
    ⟨⟨22, rfl, rfl⟩, by decide⟩

/-! ### C2: candidate deduplication -/

/-- Claim C2 (amended): `_ExtendPoints` never replaces: a `point_id` already in
`points_map` keeps its existing record whatever the incoming `exp_time`, and a
fresh `point_id` gets the record of the *first* bucket entry carrying it. -/
theorem extendPoints_first_wins (points_map : List (ℕ × PMRec))
    (points : List CachePoint) (pid : ℕ) :
    ((dictGet points_map pid).isSome →
      dictGet (extendPoints points_map points) pid = dictGet points_map pid) ∧
    (dictGet points_map pid = none →
      dictGet (extendPoints points_map points) pid =
        (points.find? (fun p => p.point_id == pid)).map
          (fun p => ⟨p.point_id, p.priority, p.exp_time, none, none⟩)) := by
  induction points generalizing points_map with
  | nil => exact ⟨fun _ => rfl, fun h => by simp [extendPoints, h]⟩
  | cons p rest ih =>
    have hstep : extendPoints points_map (p :: rest) =
        extendPoints
          (if (dictGet points_map p.point_id).isSome then points_map
           else dictSet points_map p.point_id
             ⟨p.point_id, p.priority, p.exp_time, none, none⟩) rest := rfl
    constructor
    · intro hsome
      rw [hstep]
      by_cases hp : (dictGet points_map p.point_id).isSome
      · rw [if_pos hp]
        exact (ih points_map).1 hsome
      · rw [if_neg hp]
        have hne : pid ≠ p.point_id := by
          intro he
          subst he
          exact hp hsome
        have hget : dictGet (dictSet points_map p.point_id
            ⟨p.point_id, p.priority, p.exp_time, none, none⟩) pid =
            dictGet points_map pid := dictGet_dictSet_ne _ _ _ _ hne
        rw [(ih _).1 (by rw [hget]; exact hsome), hget]
    · intro hnone
      rw [hstep]
      by_cases hpid : p.point_id = pid
      · subst hpid
        rw [if_neg (by simp [hnone])]
        have hget : dictGet (dictSet points_map p.point_id
            ⟨p.point_id, p.priority, p.exp_time, none, none⟩) p.point_id =
            some ⟨p.point_id, p.priority, p.exp_time, none, none⟩ :=
          dictGet_dictSet_self _ _ _
        rw [(ih _).1 (by rw [hget]; rfl), hget]
        simp [List.find?]
      · have hbeq : (p.point_id == pid) = false := by simp [hpid]
        have hfind : (p :: rest).find? (fun q => q.point_id == pid) =
            rest.find? (fun q => q.point_id == pid) := by
          simp [List.find?, hbeq]
        rw [hfind]
        by_cases hp : (dictGet points_map p.point_id).isSome
        · rw [if_pos hp]
          exact (ih points_map).2 hnone
        · rw [if_neg hp]
          have hne : pid ≠ p.point_id := fun he => hpid he.symm
          have hget : dictGet (dictSet points_map p.point_id
              ⟨p.point_id, p.priority, p.exp_time, none, none⟩) pid =
              dictGet points_map pid := dictGet_dictSet_ne _ _ _ _ hne
          rw [(ih _).2 (by rw [hget]; exact hnone)]

/-- Counterexample to C2 as stated: a newly fetched entry for point 5 carrying
a later `exp_time` (200 > 100) does not replace the resident candidate. -/
theorem extendPoints_keeps_stale :
    (dictGet (extendPoints mapC2 [pointC2]) 5).map PMRec.exp_time = some 100 ∧
    (100 : ℤ) < pointC2.exp_time := by
  exact ⟨rfl, by decide⟩

/-- Witness for C2: the resident candidate for point 5 is untouched by the
fresher fetch. -/
theorem extendPoints_first_wins_witness :
    dictGet (extendPoints mapC2 [pointC2]) 5 = dictGet mapC2 5 :=
  (extendPoints_first_wins mapC2 [pointC2] 5).1 (by rfl)

/-! ### C7: radius-driven starting zoom -/

theorem intDiv_toNat (m : ℕ) (r : ℤ) (hr : 0 < r) :
    (m : ℤ) / r = ((m / r.toNat : ℕ) : ℤ) := by
  have h1 : ((r.toNat : ℕ) : ℤ) = r := Int.toNat_of_nonneg hr.le
  rw [← h1]
  exact (Int.ofNat_div m r.toNat).symm

/-- Claim C7 (amended): with an integer `radius`, `_GetZoomLevel` returns
`maxZ` for `radius ≤ 0`; for `0 < radius ≤ 2·R` it returns exactly the spec's
`clamp(floor(log2((2·R)/radius)), 0, maxZ)` (which lies in `[0, maxZ]`);
and for `radius > 2·R` the Python-2 floor division makes `multiplier = 0` and
`math.log(0, 2)` raises a `ValueError` instead of returning a zoom. -/
theorem getZoomLevel_characterisation (apps : Apps) (app_id : ℕ) (a : App)
    (radius : ℤ) (ha : dictGet apps app_id = some a) :
    (radius ≤ 0 → getZoomLevel apps app_id radius = .ok a.max_zoom_level) ∧
    (0 < radius → radius ≤ 2 * (EARTH_RADIUS : ℤ) →
      getZoomLevel apps app_id radius =
        .ok (specStartingZoom a.max_zoom_level (radius : ℚ)).toNat ∧
      0 ≤ specStartingZoom a.max_zoom_level (radius : ℚ) ∧
      specStartingZoom a.max_zoom_level (radius : ℚ) ≤ (a.max_zoom_level : ℤ)) ∧
    (2 * (EARTH_RADIUS : ℤ) < radius →
      getZoomLevel apps app_id radius = .error .valueError) := by
  have hgA : getApp apps app_id = .ok a := by unfold getApp; rw [ha]
  refine ⟨?_, ?_, ?_⟩
  · intro h
    simp only [getZoomLevel, hgA]
    rw [if_pos h]
  · intro h1 h2
    set n := radius.toNat with hn
    have hrn : ((n : ℕ) : ℤ) = radius := Int.toNat_of_nonneg h1.le
    have hn1 : 1 ≤ n := by omega
    have hn2 : n ≤ 2 * EARTH_RADIUS := by
      have := h2
      rw [← hrn] at this
      exact_mod_cast this
    set m := EARTH_RADIUS * 2 / n with hm
    have hdiv : (EARTH_RADIUS * 2 : ℤ) / radius = ((m : ℕ) : ℤ) := by
      have := intDiv_toNat (EARTH_RADIUS * 2) radius h1
      rw [← hn] at this  -- replace radius.toNat by n
      rw [← this]
      push_cast
      ring_nf
    have hm1 : 1 ≤ m := by
      rw [hm]
      exact (Nat.one_le_div_iff (by omega)).mpr (by omega)
    -- the real-division spec value equals the code's Nat.log of the floor div
    have hrq : ((radius : ℤ) : ℚ) = ((n : ℕ) : ℚ) := by
      rw [← hrn]; push_cast; ring
    have hq1 : (1 : ℚ) ≤ (2 * (EARTH_RADIUS : ℚ)) / ((radius : ℤ) : ℚ) := by
      rw [hrq]
      rw [le_div_iff (by exact_mod_cast Nat.lt_of_lt_of_le Nat.zero_lt_one hn1)]
      calc (1 : ℚ) * ((n : ℕ) : ℚ) = ((n : ℕ) : ℚ) := by ring
        _ ≤ ((2 * EARTH_RADIUS : ℕ) : ℚ) := by exact_mod_cast hn2
        _ = 2 * (EARTH_RADIUS : ℚ) := by push_cast; ring
    have hfl : ⌊(2 * (EARTH_RADIUS : ℚ)) / ((radius : ℤ) : ℚ)⌋₊ = m := by
      rw [hrq]
      have h2e : (2 * (EARTH_RADIUS : ℚ)) = ((EARTH_RADIUS * 2 : ℕ) : ℚ) := by
        push_cast; ring
      rw [h2e, Nat.floor_div_nat, Nat.floor_natCast]
    have hlog : Int.log 2 ((2 * (EARTH_RADIUS : ℚ)) / ((radius : ℤ) : ℚ)) =
        (Nat.log 2 m : ℤ) := by
      rw [Int.log_of_one_le_right 2 hq1, hfl]
    have hspec : specStartingZoom a.max_zoom_level (radius : ℚ) =
        min (a.max_zoom_level : ℤ) (Nat.log 2 m : ℤ) := by
      unfold specStartingZoom
      rw [hlog]
      exact max_eq_right (le_min (Int.natCast_nonneg _) (Int.natCast_nonneg _))
    refine ⟨?_, ?_, ?_⟩
    · simp only [getZoomLevel, hgA]
      rw [if_neg (not_le.mpr h1), hdiv]
      rw [if_neg (by exact_mod_cast not_le.mpr (by omega : (0 : ℤ) < (m : ℤ)))]
      rw [Int.toNat_natCast]
      rw [if_neg (by exact_mod_cast not_lt.mpr (Nat.cast_nonneg _))]
      by_cases hcmp : ((Nat.log 2 m : ℤ)) > (a.max_zoom_level : ℤ)
      · rw [if_pos hcmp, hspec]
        rw [min_eq_left hcmp.le]
        simp
      · rw [if_neg hcmp, hspec]
        rw [min_eq_right (not_lt.mp hcmp)]
    · rw [hspec]
      exact le_min (by exact_mod_cast Nat.zero_le _) (by exact_mod_cast Nat.zero_le _)
    · rw [hspec]
      exact min_le_left _ _
  · intro h
    have h1 : (0 : ℤ) < radius := by
      have : (0 : ℤ) < 2 * (EARTH_RADIUS : ℤ) := by norm_num [EARTH_RADIUS]
      omega
    simp only [getZoomLevel, hgA]
    rw [if_neg (not_le.mpr h1)]
    have hz : (EARTH_RADIUS * 2 : ℤ) / radius = 0 := by
      apply Int.ediv_eq_zero_of_lt
      · norm_num [EARTH_RADIUS]
      · omega
    rw [hz]
    rw [if_pos (le_refl 0)]

/-- Counterexample to C7 as stated: the integer radius 13 000 000 m exceeds
2·R, so `(2·R)/radius` floor-divides to 0 and `math.log(0, 2)` raises a
`ValueError` — no zoom is returned — while the claimed clamp formula would
still denote a zoom `≥ 0`. -/
theorem getZoomLevel_crash_large_radius :
    getZoomLevel apps1 1 13000000 = Except.error PyError.valueError ∧
    0 ≤ specStartingZoom 20 (13000000 : ℚ) := by
  refine ⟨?_, le_max_left _ _⟩
  have hgA : getApp apps1 1 = .ok app1 := rfl
  simp only [getZoomLevel, hgA]
  rw [if_neg (by norm_num)]
  have hz : (EARTH_RADIUS * 2 : ℤ) / 13000000 = 0 := by
    apply Int.ediv_eq_zero_of_lt <;> norm_num [EARTH_RADIUS]
  rw [hz]
  rw [if_pos (le_refl 0)]

/-- Witness for C7: radius 100 000 m with maxZoom 20 gives starting zoom 6. -/
theorem getZoomLevel_characterisation_witness :
    getZoomLevel apps1 1 100000 = Except.ok 6 := by
  have h := (getZoomLevel_characterisation apps1 1 app1 100000 rfl).2.1
    (by norm_num) (by norm_num [EARTH_RADIUS])
  rw [h.1]
  have hq1 : (1 : ℚ) ≤ (2 * (EARTH_RADIUS : ℚ)) / ((100000 : ℤ) : ℚ) := by
    norm_num [EARTH_RADIUS]
  have hfl : ⌊(2 * (EARTH_RADIUS : ℚ)) / ((100000 : ℤ) : ℚ)⌋₊ = 127 := by
    have h2e : (2 * (EARTH_RADIUS : ℚ)) / ((100000 : ℤ) : ℚ) =
        ((12742000 : ℕ) : ℚ) / ((100000 : ℕ) : ℚ) := by
      norm_num [EARTH_RADIUS]
    rw [h2e, Nat.floor_div_nat, Nat.floor_natCast]
  have hlog : Int.log 2 ((2 * (EARTH_RADIUS : ℚ)) / ((100000 : ℤ) : ℚ)) = 6 := by
    rw [Int.log_of_one_le_right 2 hq1, hfl]
    have h127 : Nat.log 2 127 = 6 :=
      Nat.log_eq_of_pow_le_of_lt_pow (by norm_num) (by norm_num)
    rw [h127]
    norm_num
  have : specStartingZoom app1.max_zoom_level ((100000 : ℤ) : ℚ) = 6 := by
    unfold specStartingZoom
    rw [hlog]
    norm_num [app1]
  rw [this]
  rfl

/-! ### Real-valued geometry (`GeoApi._GetDistance`, `_ToXYZ`, `_FromXYZ`)

Python float arithmetic is modelled as exact real arithmetic; `pow(s, 0.5)`
on the non-negative sum of squares is `Real.sqrt`.  Decisions on real numbers
use classical decidability, so these definitions are noncomputable. -/

open scoped Classical

/-- `GeoApi._GetDistance`. -/
noncomputable def getDistance (coord1 coord2 : ℝ × ℝ × ℝ) : ℝ :=
  Real.sqrt ((coord1.1 - coord2.1) ^ 2 + (coord1.2.1 - coord2.2.1) ^ 2 +
    (coord1.2.2 - coord2.2.2) ^ 2)

/-- `GeoApi._ToXYZ` with its asserts verbatim: note that the source checks the
radian values `phi`, `gamma` against the degree bounds ±90 / ±180. -/
noncomputable def toXYZ (coord : ℝ × ℝ × ℝ) : Except PyError (ℝ × ℝ × ℝ) :=
  let phi := coord.1 / 180 * Real.pi
  let gamma := coord.2.1 / 180 * Real.pi
  if ¬(-90 ≤ phi ∧ phi ≤ 90) then .error .assertionError
  else if ¬(-180 ≤ gamma ∧ gamma ≤ 180) then .error .assertionError
  else
    let elevation0 := coord.2.2 / (EARTH_RADIUS : ℝ)
    let elevation := if elevation0 < -1 then (-1 : ℝ)
      else if 1 < elevation0 then 1 else elevation0
    let r := 1 + elevation
    if ¬(0 ≤ r ∧ r ≤ 2) then .error .assertionError
    else
      let r_xy := r * Real.cos phi
      let z0 := r * Real.sin phi
      let x0 := r_xy * Real.cos gamma
      let y0 := r_xy * Real.sin gamma
      let x := 0.25 * x0 + 0.5
      let y := 0.25 * y0 + 0.5
      let z := 0.25 * z0 + 0.5
      if ¬(0 ≤ x ∧ x ≤ 1) then .error .assertionError
      else if ¬(0 ≤ y ∧ y ≤ 1) then .error .assertionError
      else if ¬(0 ≤ z ∧ z ≤ 1) then .error .assertionError
      else .ok (x, y, z)

/-- `GeoApi._FromXYZ` with its asserts and branches (`math.asin` is
`Real.arcsin`; `if not r` tests `r == 0`). -/
noncomputable def fromXYZ (coord : ℝ × ℝ × ℝ) : Except PyError (ℝ × ℝ × ℝ) :=
  let x := coord.1 * 4 - 2
  let y := coord.2.1 * 4 - 2
  let z := coord.2.2 * 4 - 2
  if ¬(-2 ≤ x ∧ x ≤ 2) then .error .assertionError
  else if ¬(-2 ≤ y ∧ y ≤ 2) then .error .assertionError
  else if ¬(-2 ≤ z ∧ z ≤ 2) then .error .assertionError
  else
    let r := getDistance (0, 0, 0) (x, y, z)
    if r = 0 then .ok (0, 0, -(EARTH_RADIUS : ℝ))
    else
      let phi := Real.arcsin (z / r)
      let r_xy := r * Real.cos phi
      let gamma0 := if r_xy = 0 then (0 : ℝ) else Real.arcsin (y / r_xy)
      let gamma := if x < 0 then (if 0 < y then Real.pi - gamma0 else -Real.pi - gamma0)
        else gamma0
      let elevation := (r - 1) * (EARTH_RADIUS : ℝ)
      .ok (phi * 180 / Real.pi, gamma * 180 / Real.pi, elevation)

/-- `GeoApi._GetPointCoord`: project the explicit `coord` kwarg when given,
else take the point's stored coordinate (`IndexError` when the point is not in
the roster), which may be Python `None`. -/
noncomputable def getPointCoord (apps : Apps) (app_id point_id : ℕ)
    (kcoord : Option (ℝ × ℝ × ℝ)) : Except PyError (Option (ℝ × ℝ × ℝ)) :=
  match kcoord with
  | some c =>
    match toXYZ c with
    | .error e => .error e
    | .ok xyz => .ok (some xyz)
  | none =>
    match getPointsCoords apps app_id [point_id] with
    | .error e => .error e
    | .ok [] => .error .indexError
    | .ok ((_, stored) :: _) => .ok stored

/-- `GeoApi._AddMissingCoordAndDistance`: batch-fetch stored coordinates for
candidates lacking a `coord` field and set `coord` and `distance`; computing
the distance against a stored `None` coordinate raises a `TypeError`. -/
noncomputable def addMissingCoordAndDistance (apps : Apps) (app_id : ℕ)
    (points_map : List (ℕ × PMRec)) (coord : ℝ × ℝ × ℝ) :
    Except PyError (List (ℕ × PMRec)) :=
  let points_ids := (points_map.filter (fun kv => kv.2.coord.isNone)).map (·.1)
  match getPointsCoords apps app_id points_ids with
  | .error e => .error e
  | .ok pcs =>
    pcs.foldlM
      (fun m pc =>
        match dictGet m pc.1 with
        | none => .error .keyError
        | some rec0 =>
          match pc.2 with
          | none => .error .typeError
          | some p_coord =>
            .ok (dictSet m pc.1
              { rec0 with
                coord := some (some p_coord)
                distance := some (getDistance coord p_coord) }))
      points_map

/-- `GeoApi._FilterPoints`: keep the candidates with
`distance < max_distance`; a candidate lacking the `distance` key raises
`KeyError`. -/
noncomputable def filterPoints (points : List PMRec) (max_distance : ℝ) :
    Except PyError (List PMRec) :=
  if points.any (fun p => p.distance.isNone) then .error .keyError
  else .ok (points.filter (fun p => decide (p.distance.getD 0 < max_distance)))

/-- The `while True` zoom-descend loop of `GeoApi._NearestPoints`: fetch the
27 neighbour buckets (purging them as a side effect), extend the candidate
map, join the missing coordinates, filter by the tile size, and stop when more
than `points_limit` candidates pass the filter or zoom 0 is reached; otherwise
descend one zoom with a doubled tile size. -/
noncomputable def nearestLoop (apps : Apps) (app_id subject_id : ℕ)
    (coord : ℝ × ℝ × ℝ) (points_limit : ℕ) (current_time : ℤ) :
    ℕ → ℝ → Cache → List (ℕ × PMRec) → Except PyError (List PMRec × Cache)
  | zoom_level, tile_size, cache, points_map =>
    match getSectorId coord zoom_level with
    | .error e => .error e
    | .ok sector_id =>
      let fetched := (getNearestSectorIds sector_id).foldl
        (fun (acc : List (ℕ × PMRec) × Cache) s_sector_id =>
          let r := getPointsInSector acc.2 app_id subject_id s_sector_id zoom_level
            current_time
          (extendPoints acc.1 r.1, r.2))
        (points_map, cache)
      match addMissingCoordAndDistance apps app_id fetched.1 coord with
      | .error e => .error e
      | .ok points_map' =>
        match filterPoints (points_map'.map (·.2)) tile_size with
        | .error e => .error e
        | .ok filtered_points =>
          if filtered_points.length > points_limit then .ok (filtered_points, fetched.2)
          else
            match zoom_level with
            | 0 => .ok (filtered_points, fetched.2)
            | z + 1 =>
              nearestLoop apps app_id subject_id coord points_limit current_time
                z (tile_size * 2) fetched.2 points_map'

/-- A record returned by `NEAREST_POINTS`:
`{point_id, coord, priority, distance}`. -/
structure NearestResult where
  point_id : ℕ
  coord : ℝ × ℝ × ℝ
  priority : ℚ
  distance : ℝ

/-- `GeoApi._NearestPoints`: resolve the query coordinate (a stored `None`
reaches the first `_GetSectorId` of the loop and raises a `TypeError`),
compute the starting zoom from `radius`, run the zoom-descend loop, then sort
the filtered candidates by distance and return the first `points_limit`
records, coordinates mapped back through `_FromXYZ` and distances scaled by
`R·4`. -/
noncomputable def nearestPoints (apps : Apps) (cache : Cache)
    (app_id point_id subject_id : ℕ) (kcoord : Option (ℝ × ℝ × ℝ))
    (kradius : Option ℤ) (kpoints_limit : Option ℕ) (current_time : ℤ) :
    Except PyError (List NearestResult × Cache) :=
  match getPointCoord apps app_id point_id kcoord with
  | .error e => .error e
  | .ok ocoord =>
    let points_limit := kpoints_limit.getD DEFAULT_POINTS_LIMIT
    match getZoomLevel apps app_id (kradius.getD 0) with
    | .error e => .error e
    | .ok zoom_level =>
      let tile_size : ℝ := getTileSize zoom_level
      match ocoord with
      | none => .error .typeError
      | some coord =>
        match nearestLoop apps app_id subject_id coord points_limit current_time
            zoom_level tile_size cache [] with
        | .error e => .error e
        | .ok (filtered_points, cache') =>
          let sorted := filtered_points.mergeSort
            (fun p q => decide (p.distance.getD 0 ≤ q.distance.getD 0))
          match (sorted.take points_limit).mapM (fun p =>
              show Except PyError NearestResult from
              match p.coord with
              | none => .error PyError.keyError
              | some none => .error PyError.typeError
              | some (some cube_coord) =>
                match fromXYZ cube_coord with
                | .error e => .error e
                | .ok geo_coord =>
                  .ok (⟨p.point_id, geo_coord, p.priority,
                    p.distance.getD 0 * (EARTH_RADIUS : ℝ) * 4⟩ : NearestResult)) with
          | .error e => .error e
          | .ok results => .ok (results, cache')

/-- A record returned by `POINTS_COORDS`: `{point_id, coord, distance}`. -/
structure CoordsResult where
  point_id : ℕ
  coord : ℝ × ℝ × ℝ
  distance : ℝ

/-- The comprehension body of `GeoApi._PointsCoords`: the dict literal is
built in key order, so `_FromXYZ` of the stored coordinate runs before
`_GetDistance` against the query coordinate; a `None` in either place raises
a `TypeError`. -/
noncomputable def pointsCoordsRecord (ocoord : Option (ℝ × ℝ × ℝ))
    (pc : ℕ × Option (ℝ × ℝ × ℝ)) : Except PyError CoordsResult :=
  match pc.2 with
  | none => .error PyError.typeError
  | some p_coord =>
    match fromXYZ p_coord with
    | .error e => .error e
    | .ok geo_coord =>
      match ocoord with
      | none => .error PyError.typeError
      | some q =>
        .ok ⟨pc.1, geo_coord, getDistance q p_coord * (EARTH_RADIUS : ℝ) * 4⟩

/-- `GeoApi._PointsCoords`: resolve the query coordinate as in
`_NearestPoints`, fetch the requested ids' stored coordinates (unknown ids are
silently skipped), build the records — a stored `None` raises in `_FromXYZ`,
then a `None` query coordinate raises in `_GetDistance` — optionally filter by
`radius`, sort by distance and truncate to `points_limit`. -/
noncomputable def pointsCoords (apps : Apps) (app_id point_id : ℕ)
    (points_ids : List ℕ) (kcoord : Option (ℝ × ℝ × ℝ)) (kradius : Option ℤ)
    (kpoints_limit : Option ℕ) : Except PyError (List CoordsResult) :=
  match getPointCoord apps app_id point_id kcoord with
  | .error e => .error e
  | .ok ocoord =>
    let points_limit := kpoints_limit.getD points_ids.length
    let radius := kradius.getD 0
    match getPointsCoords apps app_id points_ids with
    | .error e => .error e
    | .ok pcs =>
      match pcs.mapM (pointsCoordsRecord ocoord) with
      | .error e => .error e
      | .ok points =>
        let points := if 0 < radius then
            points.filter (fun p => decide (p.distance < (radius : ℝ)))
          else points
        let sorted := points.mergeSort (fun p q => decide (p.distance ≤ q.distance))
        .ok (sorted.take points_limit)

/-- `GeoApi._UpdatePoint` (the `UPDATE_POINT` handler): project the coordinate
(`KeyError` when the `coord` kwarg is missing), read the subjects, store the
projected coordinate, then run the zoom-climb for every `(subject, priority)`
from `max_zoom_level` downwards. -/
noncomputable def geoUpdatePoint (apps : Apps) (cache : Cache)
    (app_id point_id : ℕ) (kcoord : Option (ℝ × ℝ × ℝ)) (current_time : ℤ) :
    Except PyError (Apps × Cache) :=
  match kcoord with
  | none => .error .keyError
  | some gc =>
    match toXYZ gc with
    | .error e => .error e
    | .ok coord =>
      match getPointSubjects apps app_id point_id with
      | .error e => .error e
      | .ok subjects =>
        match setPointCoord apps app_id point_id coord with
        | .error e => .error e
        | .ok apps' =>
          match getMaxZoomLevel apps' app_id with
          | .error e => .error e
          | .ok max_zoom_level =>
            match subjects.foldlM (fun ch (sp : ℕ × ℚ) =>
                show Except PyError Cache from
                match updatePointClimb app_id sp.1 point_id sp.2 coord current_time
                    max_zoom_level ch with
                | .error e => .error e
                | .ok r => .ok r.1) cache with
            | .error e => .error e
            | .ok cache' => .ok (apps', cache')

/-! ### C9: the geodetic range assert -/

/-- C9 (code bug): `_ToXYZ`'s range assert compares the radian values
`phi = lat·π/180`, `gamma = lon·π/180` against the degree bounds ±90 / ±180,
so it only fires for |lat| beyond ≈ 5157°.  Latitude 100° is outside the
geodetic range `[-90, 90]`, yet the projection passes the check and returns a
unit-cube point instead of raising the `InvalidArgument`-class error. -/
theorem toXYZ_accepts_lat100 :
    ¬ ((100 : ℝ) ≤ 90) ∧ ∃ p, toXYZ (100, 0, 0) = Except.ok p := by
  constructor
  · norm_num
  · have hpi4 := Real.pi_le_four
    have hpi0 := Real.pi_pos
    have hc1 := Real.neg_one_le_cos (5 / 9 * Real.pi)
    have hc2 := Real.cos_le_one (5 / 9 * Real.pi)
    have hs1 := Real.neg_one_le_sin (5 / 9 * Real.pi)
    have hs2 := Real.sin_le_one (5 / 9 * Real.pi)
    simp only [toXYZ]
    norm_num [Real.cos_zero, Real.sin_zero, EARTH_RADIUS]
    split_ifs with h1 h2 h3
    · exact absurd (h1 (by nlinarith)) (not_lt.mpr (by nlinarith))
    · exact absurd (h2 (by nlinarith)) (not_lt.mpr (by nlinarith))
    · exact absurd (h3 (by nlinarith)) (not_lt.mpr (by nlinarith))
    · exact ⟨_, _, _, rfl⟩

/-! ### C10: calls on a point with no published coordinate -/

theorem mapM_cons_error {ε α β : Type} (f : α → Except ε β) (a : α) (l : List α)
    (e : ε) (h : f a = .error e) : (a :: l).mapM f = .error e := by
  unfold List.mapM List.mapM.loop
  rw [h]
  rfl

theorem getPointCoord_stored_none (apps : Apps) (app_id point_id : ℕ)
    (a : App) (p : AppPoint) (ha : dictGet apps app_id = some a)
    (hp : dictGet a.points point_id = some p) (hc : p.coord = none) :
    getPointCoord apps app_id point_id none = .ok none := by
  unfold getPointCoord getPointsCoords getApp
  rw [ha]
  simp [hp, hc]

theorem pointsCoordsRecord_noQuery_error (pc : ℕ × Option (ℝ × ℝ × ℝ)) :
    ∃ e, pointsCoordsRecord none pc = .error e := by
  unfold pointsCoordsRecord
  cases h2 : pc.2 with
  | none => exact ⟨.typeError, rfl⟩
  | some p_coord =>
    dsimp only
    cases hfx : fromXYZ p_coord with
    | error e => exact ⟨e, rfl⟩
    | ok g => exact ⟨.typeError, rfl⟩

/-- Claim C10 (amended): a point added by `AddPoint` has no stored coordinate;
for such a point, a `NEAREST_POINTS` call without an explicit `coord` always
errors (the stored `None` is unpacked by the loop's first `_GetSectorId`), and
a `POINTS_COORDS` call errors whenever `points_ids` contains at least one id
in the roster (the `None` query coordinate reaches the per-record
`coord`/`distance` computation); with no known ids `POINTS_COORDS` instead
returns the empty list normally. -/
theorem unpublished_coord_calls_error :
    (∀ (apps : Apps) (app_id point_id : ℕ) (apps' : Apps),
      addPoint apps app_id point_id = .ok apps' →
      ∃ a, dictGet apps' app_id = some a ∧
        dictGet a.points point_id = some ⟨[], none⟩) ∧
    (∀ (apps : Apps) (cache : Cache) (app_id point_id subject_id : ℕ)
      (kradius : Option ℤ) (kpoints_limit : Option ℕ) (current_time : ℤ)
      (a : App) (p : AppPoint),
      dictGet apps app_id = some a →
      dictGet a.points point_id = some p →
      p.coord = none →
      ∃ e, nearestPoints apps cache app_id point_id subject_id none kradius
        kpoints_limit current_time = Except.error e) ∧
    (∀ (apps : Apps) (app_id point_id : ℕ) (points_ids : List ℕ)
      (kradius : Option ℤ) (kpoints_limit : Option ℕ) (a : App) (p : AppPoint),
      dictGet apps app_id = some a →
      dictGet a.points point_id = some p →
      p.coord = none →
      (∃ q ∈ points_ids, (dictGet a.points q).isSome) →
      ∃ e, pointsCoords apps app_id point_id points_ids none kradius
        kpoints_limit = Except.error e) := by
  refine ⟨?_, ?_, ?_⟩
  · intro apps app_id point_id apps' h
    unfold addPoint at h
    cases ha : dictGet apps app_id with
    | none => rw [ha] at h; cases h
    | some a0 =>
      rw [ha] at h
      injection h with h
      refine ⟨{ a0 with points := dictSet a0.points point_id ⟨[], none⟩ }, ?_, ?_⟩
      · rw [← h]; exact dictGet_dictSet_self _ _ _
      · dsimp only
        exact dictGet_dictSet_self _ _ _
  · intro apps cache app_id point_id subject_id kradius kpoints_limit current_time
      a p ha hp hc
    have hgpc := getPointCoord_stored_none apps app_id point_id a p ha hp hc
    unfold nearestPoints
    rw [hgpc]
    cases hz : getZoomLevel apps app_id (kradius.getD 0) with
    | error e => exact ⟨e, rfl⟩
    | ok z => exact ⟨.typeError, rfl⟩
  · intro apps app_id point_id points_ids kradius kpoints_limit a p ha hp hc hq
    have hgpc := getPointCoord_stored_none apps app_id point_id a p ha hp hc
    have hgA : getApp apps app_id = .ok a := by unfold getApp; rw [ha]
    have hpcs : getPointsCoords apps app_id points_ids =
        .ok (points_ids.filterMap
          (fun pid => (dictGet a.points pid).map (fun q => (pid, q.coord)))) := by
      unfold getPointsCoords
      rw [hgA]
    obtain ⟨q, hqmem, hqsome⟩ := hq
    obtain ⟨pc0, rest, hsplit⟩ : ∃ x xs, points_ids.filterMap
        (fun pid => (dictGet a.points pid).map (fun r => (pid, r.coord))) = x :: xs := by
      cases hnil : points_ids.filterMap
          (fun pid => (dictGet a.points pid).map (fun r => (pid, r.coord))) with
      | nil =>
        exfalso
        have hall := List.filterMap_eq_nil_iff.mp hnil q hqmem
        cases hdq : dictGet a.points q with
        | none => rw [hdq] at hqsome; cases hqsome
        | some _ => rw [hdq] at hall; cases hall
      | cons x xs => exact ⟨x, xs, rfl⟩
    obtain ⟨e0, he0⟩ := pointsCoordsRecord_noQuery_error pc0
    unfold pointsCoords
    rw [hgpc, hpcs, hsplit]
    dsimp only
    rw [mapM_cons_error _ _ _ _ he0]
    exact ⟨e0, rfl⟩

/-- Witness for C10: querying NEAREST_POINTS for point 7 of `apps1` (in the
roster, no published coordinate) without an explicit `coord` errors out. -/
theorem unpublished_coord_calls_error_witness :
    ∃ e, nearestPoints apps1 cacheInit 1 7 5 none none none 0 = Except.error e :=
  unpublished_coord_calls_error.2.1 apps1 cacheInit 1 7 5 none none 0 app1 appPoint7
    rfl rfl rfl

/-- Counterexample to C10 as stated: POINTS_COORDS for point 7 (in the roster
with no published coordinate, `coord` kwarg absent) with an empty
`points_ids` returns the empty list normally rather than erroring. -/
theorem pointsCoords_empty_ids_ok :
    pointsCoords apps1 1 7 [] none none none = Except.ok [] ∧
    dictGet app1.points 7 = some appPoint7 ∧ appPoint7.coord = none := by
  refine ⟨?_, rfl, rfl⟩
  have hgpc : getPointCoord apps1 1 7 none = .ok none :=
    getPointCoord_stored_none apps1 1 7 app1 appPoint7 rfl rfl rfl
  unfold pointsCoords
  rw [hgpc]
  have hpcs : getPointsCoords apps1 1 [] = .ok [] := rfl
  rw [hpcs]
  dsimp only
  rw [show (([] : List (ℕ × Option (ℝ × ℝ × ℝ))).mapM (pointsCoordsRecord none)) =
    Except.ok [] from rfl]
  dsimp only [Option.getD]
  rw [if_neg (by norm_num)]
  rw [List.mergeSort_nil]
  rfl

end Geocache
